import Mathlib

/-!
Shallow embedding of the y86-lib toolchain (a Y86-64 assembler and
debugger/interpreter) and proofs about it.

Machine integers are modelled as `Nat` (for `u64`/`u8` values, with explicit
`% 2 ^ 64` wrapping where the source's arithmetic can wrap) and `Int` (for
`i64` reinterpretations).  A Rust `Vec<u8>` becomes `List Nat`; fallible
operations (including Rust panics such as out-of-bounds `Vec` indexing,
`Option::unwrap` on `None`, and division by zero) return `Except Err _`.
-/

namespace Y86

/-- Errors of one fetch/execute step.  `panic` models a Rust panic
(out-of-bounds slice index, failed `unwrap`, division by zero / overflow);
`invalidICode` models the `InvalidICode` error value returned by the
decoder. -/
inductive Err where
  | panic
  | invalidICode
deriving DecidableEq, Repr

/-- Bit 0 of the condition-code register (source constant `CC_ZERO_MASK`). -/
def CC_ZERO_MASK : Nat := 0x1

/-- Bit 1 of the condition-code register (source constant `CC_SIGN_MASK`). -/
def CC_SIGN_MASK : Nat := 0x2

/-- The `u64` modulus. -/
def U64MOD : Nat := 2 ^ 64

/-- Wrapping 64-bit addition (`u64` `+`). -/
def add64 (a b : Nat) : Nat := (a + b) % U64MOD

/-- Wrapping 64-bit subtraction (`u64` `-`). -/
def sub64 (a b : Nat) : Nat := (a + (U64MOD - b % U64MOD)) % U64MOD

/-- The machine state (source `struct State` in `executer.rs`):
registers, flat byte memory, condition code and program counter. -/
structure State where
  registers : List Nat
  program_map : List Nat
  condition_code : Nat
  program_counter : Nat
deriving DecidableEq, Repr

/-- Source `State::get_register`. -/
def State.get_register (s : State) (register_id : Nat) : Nat :=
  s.registers.getD register_id 0

/-- Source `State::set_register`. -/
def State.set_register (s : State) (register_id value : Nat) : State :=
  { s with registers := s.registers.set register_id value }

/-- Source `State::get_condition_code`. -/
def State.get_condition_code (s : State) : Nat := s.condition_code

/-- Source `State::set_condition_code`. -/
def State.set_condition_code (s : State) (value : Nat) : State :=
  { s with condition_code := value }

/-- Source `State::set_pc`. -/
def State.set_pc (s : State) (new_pc : Nat) : State :=
  { s with program_counter := new_pc }

/-- Source `State::get_pc`. -/
def State.get_pc (s : State) : Nat := s.program_counter

/-- Source `State::read_byte`: `self.program_map[address as usize]`.
The unchecked `Vec` index panics when `address` is out of range. -/
def State.read_byte (s : State) (address : Nat) : Except Err Nat :=
  match s.program_map[address]? with
  | some b => .ok b
  | none => .error .panic

/-- Loop body of `State::read_le`.  The source runs `i = 0..8` doing
`res = (res << 8) | mem[address + 7 - i]`; here `count` counts the remaining
iterations, so the byte read is `mem[address + (count - 1)]`, i.e. the loop
reads `address + 7` first and `address` last, exactly as the source does. -/
def read_le_go (s : State) (address : Nat) : Nat → Nat → Except Err Nat
  | res, 0 => .ok res
  | res, count + 1 => do
    let b ← s.read_byte (address + count)
    read_le_go s address ((res <<< 8) ||| b) count

/-- Source `State::read_le`: assemble 8 consecutive bytes starting at
`address`, byte 0 least significant.  Panics (rather than returning an
error value) when a byte is out of range. -/
def State.read_le (s : State) (address : Nat) : Except Err Nat :=
  read_le_go s address 0 8

/-- Loop body of `State::write_le`.  The source runs `i = 0..8` doing
`mem[address + i] = ((value >> 8 * i) & 0xFF) as u8`; the unchecked index
panics when `address + i` is out of range.  `count` counts the remaining
iterations (so `i = 7 - count`), making the recursion structural. -/
def write_le_go (address value : Nat) : State → Nat → Except Err State
  | s, 0 => .ok s
  | s, count + 1 =>
    let i := 7 - count
    let val := (value >>> (8 * i)) &&& 0xFF
    match s.program_map[address + i]? with
    | some _ =>
      write_le_go address value
        { s with program_map := s.program_map.set (address + i) val } count
    | none => .error .panic

/-- Source `State::write_le`. -/
def State.write_le (s : State) (address value : Nat) : Except Err State :=
  write_le_go address value s 8

/-- The memory produced by a successful `write_le`: the 8 target bytes set
to the little-endian bytes of `value`. -/
def setBytes (m : List Nat) (address value : Nat) : List Nat :=
  (((((((m.set address ((value >>> 0) &&& 0xFF)).set
    (address + 1) ((value >>> 8) &&& 0xFF)).set
    (address + 2) ((value >>> 16) &&& 0xFF)).set
    (address + 3) ((value >>> 24) &&& 0xFF)).set
    (address + 4) ((value >>> 32) &&& 0xFF)).set
    (address + 5) ((value >>> 40) &&& 0xFF)).set
    (address + 6) ((value >>> 48) &&& 0xFF)).set
    (address + 7) ((value >>> 56) &&& 0xFF)

/-- Source `enum ICode` in `instructions.rs`. -/
inductive ICode where
  | IHALT
  | INOP
  | IRRMVXX
  | IIRMOVQ
  | IRMMOVQ
  | IMRMOVQ
  | IOPQ
  | IJXX
  | ICALL
  | IRET
  | IPUSHQ
  | IPOPQ
  | IINVALID
  | ITOOSHORT
deriving DecidableEq, Repr

/-- Source `FromPrimitive::from_u8` for `ICode` (derived from the enum
discriminants `0x0 ..= 0xB`, `0x10`, `0x11`). -/
def icodeFromNat : Nat → Option ICode
  | 0x0 => some .IHALT
  | 0x1 => some .INOP
  | 0x2 => some .IRRMVXX
  | 0x3 => some .IIRMOVQ
  | 0x4 => some .IRMMOVQ
  | 0x5 => some .IMRMOVQ
  | 0x6 => some .IOPQ
  | 0x7 => some .IJXX
  | 0x8 => some .ICALL
  | 0x9 => some .IRET
  | 0xA => some .IPUSHQ
  | 0xB => some .IPOPQ
  | 0x10 => some .IINVALID
  | 0x11 => some .ITOOSHORT
  | _ => none

/-- Rust `Option::unwrap`: panics on `None`. -/
def unwrapO : Option α → Except Err α
  | some a => .ok a
  | none => .error .panic

/-- Source `struct Instruction`.  Registers are kept as their 4-bit ids. -/
structure Instruction where
  icode : ICode
  ifun : Nat
  r_a : Option Nat
  r_b : Option Nat
  val_c : Option Nat
  location : Nat
  val_p : Nat
deriving DecidableEq, Repr

/-- Source `Instruction::get_icode_ifun`. -/
def get_icode_ifun (s : State) : Except Err (Nat × Nat) := do
  let icode_ifun ← s.read_byte s.get_pc
  .ok ((icode_ifun >>> 4) &&& 0x0F, icode_ifun &&& 0x0F)

/-- Source `Instruction::get_registers`: splits the byte at `PC + 1`. -/
def get_registers (s : State) : Except Err (Nat × Nat) := do
  let ra_rb ← s.read_byte (s.get_pc + 1)
  .ok ((ra_rb >>> 4) &&& 0x0F, ra_rb &&& 0x0F)

/-- Source `Instruction::from_halt`. -/
def from_halt (s : State) : Except Err Instruction := do
  let (icode, ifun) ← get_icode_ifun s
  let val_p := s.get_pc + 1
  let ic ← unwrapO (icodeFromNat icode)
  .ok { icode := ic, ifun, r_a := none, r_b := none, val_c := none,
        val_p, location := s.get_pc }

/-- Source `Instruction::from_nop`. -/
def from_nop (s : State) : Except Err Instruction := do
  let (icode, ifun) ← get_icode_ifun s
  let val_p := s.get_pc + 1
  let ic ← unwrapO (icodeFromNat icode)
  .ok { icode := ic, ifun, r_a := none, r_b := none, val_c := none,
        val_p, location := s.get_pc }

/-- Source `Instruction::from_rrmovxx`. -/
def from_rrmovxx (s : State) : Except Err Instruction := do
  let (icode, ifun) ← get_icode_ifun s
  let (r_a, r_b) ← get_registers s
  let val_p := s.get_pc + 2
  let ic ← unwrapO (icodeFromNat icode)
  .ok { icode := ic, ifun, r_a := some r_a, r_b := some r_b, val_c := none,
        val_p, location := s.get_pc }

/-- Source `Instruction::from_rmmovq`. -/
def from_rmmovq (s : State) : Except Err Instruction := do
  let (icode, ifun) ← get_icode_ifun s
  let (r_a, r_b) ← get_registers s
  let val_c ← s.read_le (s.get_pc + 2)
  let val_p := s.get_pc + 10
  let ic ← unwrapO (icodeFromNat icode)
  .ok { icode := ic, ifun, r_a := some r_a, r_b := some r_b, val_c := some val_c,
        val_p, location := s.get_pc }

/-- Source `Instruction::from_mrmovq`. -/
def from_mrmovq (s : State) : Except Err Instruction := do
  let (icode, ifun) ← get_icode_ifun s
  let (r_a, r_b) ← get_registers s
  let val_c ← s.read_le (s.get_pc + 2)
  let val_p := s.get_pc + 10
  let ic ← unwrapO (icodeFromNat icode)
  .ok { icode := ic, ifun, r_a := some r_a, r_b := some r_b, val_c := some val_c,
        val_p, location := s.get_pc }

/-- Source `Instruction::from_irmovq`: reads `val_c` first, then splits the
register byte at `PC + 1` inline. -/
def from_irmovq (s : State) : Except Err Instruction := do
  let (icode, ifun) ← get_icode_ifun s
  let val_c ← s.read_le (s.get_pc + 2)
  let registers ← s.read_byte (s.get_pc + 1)
  let r_a := (registers >>> 4) &&& 0x0F
  let r_b := registers &&& 0x0F
  let val_p := s.get_pc + 10
  let ic ← unwrapO (icodeFromNat icode)
  .ok { icode := ic, ifun, r_a := some r_a, r_b := some r_b, val_c := some val_c,
        val_p, location := s.get_pc }

/-- Source `Instruction::from_jmp`. -/
def from_jmp (s : State) : Except Err Instruction := do
  let (icode, ifun) ← get_icode_ifun s
  let val_c ← s.read_le (s.get_pc + 1)
  let val_p := s.get_pc + 9
  let ic ← unwrapO (icodeFromNat icode)
  .ok { icode := ic, ifun, r_a := none, r_b := none, val_c := some val_c,
        val_p, location := s.get_pc }

/-- Source `Instruction::from_call`. -/
def from_call (s : State) : Except Err Instruction := do
  let (icode, ifun) ← get_icode_ifun s
  let val_c ← s.read_le (s.get_pc + 1)
  let val_p := s.get_pc + 9
  let ic ← unwrapO (icodeFromNat icode)
  .ok { icode := ic, ifun, r_a := none, r_b := none, val_c := some val_c,
        val_p, location := s.get_pc }

/-- Source `Instruction::from_ret`. -/
def from_ret (s : State) : Except Err Instruction := do
  let (icode, ifun) ← get_icode_ifun s
  let val_p := s.get_pc + 1
  let ic ← unwrapO (icodeFromNat icode)
  .ok { icode := ic, ifun, r_a := none, r_b := none, val_c := none,
        val_p, location := s.get_pc }

/-- Source `Instruction::from_pop`. -/
def from_pop (s : State) : Except Err Instruction := do
  let (icode, ifun) ← get_icode_ifun s
  let (r_a, r_b) ← get_registers s
  let val_p := s.get_pc + 2
  let ic ← unwrapO (icodeFromNat icode)
  .ok { icode := ic, ifun, r_a := some r_a, r_b := some r_b, val_c := none,
        val_p, location := s.get_pc }

/-- Source `Instruction::from_push`. -/
def from_push (s : State) : Except Err Instruction := do
  let (icode, ifun) ← get_icode_ifun s
  let (r_a, r_b) ← get_registers s
  let val_p := s.get_pc + 2
  let ic ← unwrapO (icodeFromNat icode)
  .ok { icode := ic, ifun, r_a := some r_a, r_b := some r_b, val_c := none,
        val_p, location := s.get_pc }

/-- Source `Instruction::from_opq`. -/
def from_opq (s : State) : Except Err Instruction := do
  let (icode, ifun) ← get_icode_ifun s
  let (r_a, r_b) ← get_registers s
  let val_p := s.get_pc + 2
  let ic ← unwrapO (icodeFromNat icode)
  .ok { icode := ic, ifun, r_a := some r_a, r_b := some r_b, val_c := none,
        val_p, location := s.get_pc }

/-- Source `Instruction::new`: classify by the high nibble of the byte at
PC, in the source's arm order; unknown icodes give `InvalidICode`. -/
def Instruction.new (s : State) : Except Err Instruction := do
  let icode_ifun ← s.read_byte s.get_pc
  let icode := (icode_ifun >>> 4) &&& 0x0F
  if icode = 0x0 then from_halt s
  else if icode = 0x1 then from_nop s
  else if icode = 0x2 then from_rrmovxx s
  else if icode = 0x5 then from_mrmovq s
  else if icode = 0x4 then from_rmmovq s
  else if icode = 0x3 then from_irmovq s
  else if icode = 0x7 then from_jmp s
  else if icode = 0x8 then from_call s
  else if icode = 0x9 then from_ret s
  else if icode = 0xB then from_pop s
  else if icode = 0xA then from_push s
  else if icode = 0x6 then from_opq s
  else .error .invalidICode

/-- Source `Instruction::cond`: condition predicate over `ifun` and the
condition-code register. -/
def cond (ifun cond_code : Nat) : Bool :=
  match ifun with
  | 0 => true
  | 1 => cond_code &&& CC_ZERO_MASK != 0 || cond_code &&& CC_SIGN_MASK != 0
  | 2 => cond_code &&& CC_SIGN_MASK != 0
  | 3 => cond_code &&& CC_ZERO_MASK != 0
  | 4 => cond_code &&& CC_ZERO_MASK == 0
  | 5 => cond_code &&& CC_SIGN_MASK == 0
  | 6 => cond_code &&& CC_SIGN_MASK == 0 && cond_code &&& CC_ZERO_MASK == 0
  | _ => false

/-- Reinterpret a `u64` bit pattern as an `i64` (Rust `as i64`). -/
def i64_of_u64 (n : Nat) : Int :=
  if n < 2 ^ 63 then (n : Int) else (n : Int) - (U64MOD : Int)

/-- Reinterpret an `i64` value as a `u64` bit pattern (Rust `as u64`). -/
def u64_of_i64 (i : Int) : Nat := (i % (U64MOD : Int)).toNat

/-- Two's-complement wrap of a signed 64-bit operation's mathematical
result (release-mode Rust `i64` `+`/`-`/`*` wrap on overflow). -/
def wrap_i64 (i : Int) : Int := i64_of_u64 (u64_of_i64 i)

/-- Source `Instruction::execute_halt`: no state change. -/
def execute_halt (_instr : Instruction) (s : State) : Except Err State :=
  .ok s

/-- Source `Instruction::execute_nop`. -/
def execute_nop (instr : Instruction) (s : State) : Except Err State :=
  .ok (s.set_pc instr.val_p)

/-- Source `Instruction::execute_rrmovxx`. -/
def execute_rrmovxx (instr : Instruction) (s : State) : Except Err State := do
  let cond_code := s.get_condition_code
  let s ←
    if cond instr.ifun cond_code then do
      let b ← unwrapO instr.r_b
      let a ← unwrapO instr.r_a
      .ok (s.set_register b (s.get_register a))
    else .ok s
  .ok (s.set_pc instr.val_p)

/-- Source `Instruction::execute_mrmovq`. -/
def execute_mrmovq (instr : Instruction) (s : State) : Except Err State := do
  let c ← unwrapO instr.val_c
  let b ← unwrapO instr.r_b
  let address := add64 c (s.get_register b)
  let value ← s.read_le address
  let a ← unwrapO instr.r_a
  .ok (((s.set_register a value).set_pc instr.val_p))

/-- Source `Instruction::execute_rmmovq`. -/
def execute_rmmovq (instr : Instruction) (s : State) : Except Err State := do
  let c ← unwrapO instr.val_c
  let b ← unwrapO instr.r_b
  let address := add64 c (s.get_register b)
  let a ← unwrapO instr.r_a
  let s ← s.write_le address (s.get_register a)
  .ok (s.set_pc instr.val_p)

/-- Source `Instruction::execute_irmovq`. -/
def execute_irmovq (instr : Instruction) (s : State) : Except Err State := do
  let b ← unwrapO instr.r_b
  let c ← unwrapO instr.val_c
  .ok ((s.set_register b c).set_pc instr.val_p)

/-- Source `Instruction::execute_jump`. -/
def execute_jump (instr : Instruction) (s : State) : Except Err State := do
  if cond instr.ifun s.get_condition_code then do
    let c ← unwrapO instr.val_c
    .ok (s.set_pc c)
  else
    .ok (s.set_pc instr.val_p)

/-- Source `Instruction::execute_call`: decrement `%rsp` by 8, write
`val_p` there, jump to `val_c`. -/
def execute_call (instr : Instruction) (s : State) : Except Err State := do
  let address := sub64 (s.get_register 4) 8
  let s ← s.write_le address instr.val_p
  let s := s.set_register 4 address
  let c ← unwrapO instr.val_c
  .ok (s.set_pc c)

/-- Source `Instruction::execute_ret`: pop the return address into PC. -/
def execute_ret (_instr : Instruction) (s : State) : Except Err State := do
  let address := s.get_register 4
  let value ← s.read_le address
  let s := s.set_register 4 (add64 address 8)
  .ok (s.set_pc value)

/-- Source `Instruction::execute_pop`. -/
def execute_pop (instr : Instruction) (s : State) : Except Err State := do
  let address := s.get_register 4
  let value ← s.read_le address
  let s := s.set_register 4 (add64 address 8)
  let a ← unwrapO instr.r_a
  .ok ((s.set_register a value).set_pc instr.val_p)

/-- Source `Instruction::execute_push`: the value written is
`state.get_register(r_a)` read BEFORE `%rsp` is updated. -/
def execute_push (instr : Instruction) (s : State) : Except Err State := do
  let address := sub64 (s.get_register 4) 8
  let a ← unwrapO instr.r_a
  let s' ← s.write_le address (s.get_register a)
  let s' := s'.set_register 4 address
  .ok (s'.set_pc instr.val_p)

/-- Source `Instruction::execute_opq`: signed 64-bit arithmetic selected by
`ifun`; `+`/`-`/`*` wrap (release build), `/`/`%` panic on a zero divisor
or on `i64::MIN / -1`; the condition code is assigned (1 if zero, 2 if
negative, 0 otherwise); the result is stored in `R[rB]` and `pc ← val_p`. -/
def execute_opq (instr : Instruction) (s : State) : Except Err State := do
  let a ← unwrapO instr.r_a
  let b ← unwrapO instr.r_b
  let ra_val : Int := i64_of_u64 (s.get_register a)
  let rb_val : Int := i64_of_u64 (s.get_register b)
  let res : Int ←
    match instr.ifun with
    | 0 => .ok (wrap_i64 (ra_val + rb_val))
    | 1 => .ok (wrap_i64 (rb_val - ra_val))
    | 2 => .ok (i64_of_u64 (s.get_register b &&& s.get_register a))
    | 3 => .ok (i64_of_u64 (s.get_register b ^^^ s.get_register a))
    | 4 => .ok (wrap_i64 (rb_val * ra_val))
    | 5 =>
      if ra_val = 0 ∨ (rb_val = -(2 ^ 63) ∧ ra_val = -1) then .error .panic
      else .ok (Int.tdiv rb_val ra_val)
    | 6 =>
      if ra_val = 0 ∨ (rb_val = -(2 ^ 63) ∧ ra_val = -1) then .error .panic
      else .ok (Int.tmod rb_val ra_val)
    | _ => .ok 0
  let s :=
    if res = 0 then s.set_condition_code CC_ZERO_MASK
    else if res < 0 then s.set_condition_code CC_SIGN_MASK
    else s.set_condition_code 0
  let s := s.set_register b (u64_of_i64 res)
  .ok (s.set_pc instr.val_p)

/-- Source `Instruction::execute`: dispatch on `icode`.  The `IINVALID` and
`ITOOSHORT` arms are `unimplemented!()` panics. -/
def Instruction.execute (instr : Instruction) (s : State) : Except Err State :=
  match instr.icode with
  | .IHALT => execute_halt instr s
  | .INOP => execute_nop instr s
  | .IRRMVXX => execute_rrmovxx instr s
  | .IMRMOVQ => execute_mrmovq instr s
  | .IRMMOVQ => execute_rmmovq instr s
  | .IIRMOVQ => execute_irmovq instr s
  | .IJXX => execute_jump instr s
  | .ICALL => execute_call instr s
  | .IRET => execute_ret instr s
  | .IPOPQ => execute_pop instr s
  | .IPUSHQ => execute_push instr s
  | .IOPQ => execute_opq instr s
  | .IINVALID => .error .panic
  | .ITOOSHORT => .error .panic

/-- Source `run_step` in `commands.rs`: execute exactly the current
instruction. -/
def run_step (instr : Instruction) (s : State) : Except Err State :=
  instr.execute s

/-- Loop of source `run_run`: decode at the current PC, and while the
decoded instruction's location is not a breakpoint and it is not `HALT`,
execute it and repeat.  `fuel` bounds the number of iterations (the Rust
loop may diverge); the result records the locations of the executed
instructions and, when the loop stopped on its own, the stop state. -/
def run_loop (bset : List Nat) : Nat → State → Except Err (List Nat × Option State)
  | 0, _ => .ok ([], none)
  | fuel + 1, s => do
    let curr ← Instruction.new s
    if curr.location ∈ bset ∨ curr.icode = .IHALT then
      .ok ([], some s)
    else do
      let s' ← curr.execute s
      let (tr, out) ← run_loop bset fuel s'
      .ok (curr.location :: tr, out)

/-- Source `run_run`: execute the current instruction unconditionally, then
run `run_loop` until a breakpoint or `HALT` is reached.  `bset` is the
process-wide breakpoint set. -/
def run_run (bset : List Nat) (fuel : Nat) (instr : Instruction) (s : State) :
    Except Err (List Nat × Option State) := do
  let s' ← instr.execute s
  let (tr, out) ← run_loop bset fuel s'
  .ok (instr.location :: tr, out)

/-- Source `merge_position` inner padding: push zero bytes until the image
length reaches `key`. -/
def pad_zeros (res : List Nat) (key : Nat) : List Nat :=
  res ++ List.replicate (key - res.length) 0

/-- Loop of source `merge_position` in `assembler.rs`: for each
`(key, val)` pair (the `BTreeMap` iterates in ascending key order) pad the
image with zeros up to `key`, then append `val`. -/
def merge_position_go : List (Nat × List Nat) → List Nat → List Nat
  | [], res => res
  | (key, val) :: rest, res => merge_position_go rest (pad_zeros res key ++ val)

/-- Source `merge_position`: fold the positioned regions into one image. -/
def merge_position (positions : List (Nat × List Nat)) : List Nat :=
  merge_position_go positions []

/-- Strings are modelled as `List Char`.  Rust `str::contains(sub)`. -/
def isSubstring (pat : List Char) (s : List Char) : Bool :=
  if pat.isPrefixOf s then true
  else
    match s with
    | [] => false
    | _ :: t => isSubstring pat t

/-- Fuel-indexed body of Rust `str::replace`: replace the leftmost
occurrence of `pat`, continue after the replacement (non-overlapping),
scanning left to right.  One unit of fuel is spent per step, and every
step strictly shrinks the string, so `fuel = s.length` suffices. -/
def replaceAllGo (pat rep : List Char) : Nat → List Char → List Char
  | 0, s => s
  | _ + 1, [] => []
  | fuel + 1, c :: t =>
    if pat ≠ [] ∧ pat.isPrefixOf (c :: t) then
      rep ++ replaceAllGo pat rep fuel ((c :: t).drop pat.length)
    else c :: replaceAllGo pat rep fuel t

/-- Rust `str::replace(pat, rep)` for a non-empty pattern. -/
def replaceAll (pat rep s : List Char) : List Char :=
  replaceAllGo pat rep s.length s

/-- Lowercase hex digit. -/
def hexDigit (n : Nat) : Char :=
  if n < 10 then Char.ofNat ('0'.toNat + n) else Char.ofNat ('a'.toNat + (n - 10))

/-- Fuel-indexed digit emitter for `format!("{:x}", v)`. -/
def toHexGo : Nat → Nat → List Char
  | 0, _ => []
  | _ + 1, 0 => []
  | fuel + 1, n => toHexGo fuel (n / 16) ++ [hexDigit (n % 16)]

/-- Source `format!("0x{:x}", val)`: `0x`-prefixed lowercase hex. -/
def format_hex (v : Nat) : List Char :=
  '0' :: 'x' :: (if v = 0 then ['0'] else toHexGo v v)

/-- Rust `str::trim` (leading whitespace). -/
def trimLeft : List Char → List Char
  | [] => []
  | c :: t => if c.isWhitespace then trimLeft t else c :: t

/-- Rust `str::trim`. -/
def trimChars (s : List Char) : List Char :=
  ((trimLeft ((trimLeft s.reverse).reverse)).reverse).reverse

/-- First part of source `apply_mapping`: if the line contains `':'`, `res`
is the trimmed text after the first `':'`; otherwise the whole line. -/
def strip_label (line : List Char) : List Char :=
  if line.contains ':' then
    trimChars (line.drop (line.findIdx (· == ':') + 1))
  else line

/-- Sorting step of source `apply_mapping`: the `(label, address)` pairs
are sorted by label length, longest first, with a stable sort (Rust
`sort_by`; the pre-sort order comes from `HashMap` iteration and is taken
here as the input list order). -/
def sortLabels (v : List (List Char × Nat)) : List (List Char × Nat) :=
  v.insertionSort (fun a b => b.1.length ≤ a.1.length)

/-- Source `apply_mapping`: strip any `label:` prefix, then for each
`(key, val)` in longest-label-first order, when `" " ++ key` occurs in the
line replace EVERY occurrence of `key` (space-preceded or not) with the
hex-formatted address. -/
def apply_mapping (mapping : List (List Char × Nat)) (line : List Char) : List Char :=
  (sortLabels mapping).foldl
    (fun res kv =>
      if isSubstring (' ' :: kv.1) res then replaceAll kv.1 (format_hex kv.2) res
      else res)
    (strip_label line)

/-- Instruction length per icode (spec section 3 invariant; matches the
decoder's `val_p` offsets). -/
def instr_length : Nat → Nat
  | 0x0 | 0x1 | 0x9 => 1
  | 0x2 | 0x6 | 0xA | 0xB => 2
  | 0x7 | 0x8 => 9
  | 0x3 | 0x4 | 0x5 => 10
  | _ => 1

/-- Non-overlap of the positioned regions, in ascending key order (the
`BTreeMap` iteration order): starting from lower bound `n`, each region's
start key is at least the end of the preceding region. -/
def regionsOk : Nat → List (Nat × List Nat) → Bool
  | _, [] => true
  | n, (key, val) :: rest => if n ≤ key then regionsOk (key + val.length) rest else false

theorem lor_disjoint (a b k : Nat) (hb : b < 2 ^ k) : (a <<< k) ||| b = a * 2 ^ k + b := by
  apply Nat.eq_of_testBit_eq
  intro i
  rw [Nat.mul_comm, Nat.testBit_mul_pow_two_add a hb, Nat.testBit_or, Nat.testBit_shiftLeft]
  rcases Nat.lt_or_ge i k with h | h
  · simp [h, Nat.not_le.mpr h]
  · have hbt : b.testBit i = false :=
      Nat.testBit_lt_two_pow (Nat.lt_of_lt_of_le hb (Nat.pow_le_pow_right (by omega) h))
    simp [h, Nat.not_lt.mpr h, hbt]

theorem and_255_eq_mod (x : Nat) : x &&& 0xFF = x % 256 := by
  have h := Nat.and_pow_two_sub_one_eq_mod x 8
  norm_num at h
  exact h

theorem and_255_lt (x : Nat) : x &&& 0xFF < 256 := by
  rw [and_255_eq_mod]
  omega

theorem write_le_go_step (address value : Nat) (s : State) (count : Nat)
    (hin : address + (7 - count) < s.program_map.length) :
    write_le_go address value s (count + 1) =
      write_le_go address value
        { s with program_map :=
            (s.program_map.set (address + (7 - count))
              ((value >>> (8 * (7 - count))) &&& 0xFF)) } count := by
  rw [write_le_go]
  simp only [List.getElem?_eq_getElem hin]

theorem write_le_go_oob (address value : Nat) (s : State) (count : Nat)
    (hout : s.program_map.length ≤ address + (7 - count)) :
    write_le_go address value s (count + 1) = .error .panic := by
  rw [write_le_go]
  simp only [List.getElem?_eq_none hout]

theorem write_le_ok (s : State) (address value : Nat)
    (h : address + 7 < s.program_map.length) :
    s.write_le address value = .ok { s with program_map := setBytes s.program_map address value } := by
  rw [State.write_le,
    write_le_go_step _ _ _ _ (by omega),
    write_le_go_step _ _ _ _ (by simp [List.length_set]; omega),
    write_le_go_step _ _ _ _ (by simp [List.length_set]; omega),
    write_le_go_step _ _ _ _ (by simp [List.length_set]; omega),
    write_le_go_step _ _ _ _ (by simp [List.length_set]; omega),
    write_le_go_step _ _ _ _ (by simp [List.length_set]; omega),
    write_le_go_step _ _ _ _ (by simp [List.length_set]; omega),
    write_le_go_step _ _ _ _ (by simp [List.length_set]; omega)]
  rw [write_le_go]
  norm_num [setBytes]

theorem read_le_go_step (s : State) (address res count b : Nat)
    (hb : s.program_map[address + count]? = some b) :
    read_le_go s address res (count + 1) = read_le_go s address ((res <<< 8) ||| b) count := by
  rw [read_le_go]
  simp only [State.read_byte, hb]
  rfl

theorem setBytes_length (m : List Nat) (address value : Nat) :
    (setBytes m address value).length = m.length := by
  simp [setBytes, List.length_set]

theorem setBytes_frame (m : List Nat) (address value a : Nat)
    (ha : a < address ∨ address + 8 ≤ a) :
    (setBytes m address value)[a]? = m[a]? := by
  simp only [setBytes]
  rw [List.getElem?_set_ne (by omega), List.getElem?_set_ne (by omega),
    List.getElem?_set_ne (by omega), List.getElem?_set_ne (by omega),
    List.getElem?_set_ne (by omega), List.getElem?_set_ne (by omega),
    List.getElem?_set_ne (by omega), List.getElem?_set_ne (by omega)]

theorem setBytes_get0 (m : List Nat) (address value : Nat) (h : address + 7 < m.length) :
    (setBytes m address value)[address]? = some ((value >>> 0) &&& 0xFF) := by
  simp only [setBytes]
  rw [List.getElem?_set_ne (by omega), List.getElem?_set_ne (by omega),
    List.getElem?_set_ne (by omega), List.getElem?_set_ne (by omega),
    List.getElem?_set_ne (by omega), List.getElem?_set_ne (by omega),
    List.getElem?_set_ne (by omega), List.getElem?_set_self (by omega)]

theorem setBytes_get1 (m : List Nat) (address value : Nat) (h : address + 7 < m.length) :
    (setBytes m address value)[address + 1]? = some ((value >>> 8) &&& 0xFF) := by
  simp only [setBytes]
  rw [List.getElem?_set_ne (by omega), List.getElem?_set_ne (by omega),
    List.getElem?_set_ne (by omega), List.getElem?_set_ne (by omega),
    List.getElem?_set_ne (by omega), List.getElem?_set_ne (by omega),
    List.getElem?_set_self (by simp [List.length_set]; omega)]

theorem setBytes_get2 (m : List Nat) (address value : Nat) (h : address + 7 < m.length) :
    (setBytes m address value)[address + 2]? = some ((value >>> 16) &&& 0xFF) := by
  simp only [setBytes]
  rw [List.getElem?_set_ne (by omega), List.getElem?_set_ne (by omega),
    List.getElem?_set_ne (by omega), List.getElem?_set_ne (by omega),
    List.getElem?_set_ne (by omega),
    List.getElem?_set_self (by simp [List.length_set]; omega)]

theorem setBytes_get3 (m : List Nat) (address value : Nat) (h : address + 7 < m.length) :
    (setBytes m address value)[address + 3]? = some ((value >>> 24) &&& 0xFF) := by
  simp only [setBytes]
  rw [List.getElem?_set_ne (by omega), List.getElem?_set_ne (by omega),
    List.getElem?_set_ne (by omega), List.getElem?_set_ne (by omega),
    List.getElem?_set_self (by simp [List.length_set]; omega)]

theorem setBytes_get4 (m : List Nat) (address value : Nat) (h : address + 7 < m.length) :
    (setBytes m address value)[address + 4]? = some ((value >>> 32) &&& 0xFF) := by
  simp only [setBytes]
  rw [List.getElem?_set_ne (by omega), List.getElem?_set_ne (by omega),
    List.getElem?_set_ne (by omega),
    List.getElem?_set_self (by simp [List.length_set]; omega)]

theorem setBytes_get5 (m : List Nat) (address value : Nat) (h : address + 7 < m.length) :
    (setBytes m address value)[address + 5]? = some ((value >>> 40) &&& 0xFF) := by
  simp only [setBytes]
  rw [List.getElem?_set_ne (by omega), List.getElem?_set_ne (by omega),
    List.getElem?_set_self (by simp [List.length_set]; omega)]

theorem setBytes_get6 (m : List Nat) (address value : Nat) (h : address + 7 < m.length) :
    (setBytes m address value)[address + 6]? = some ((value >>> 48) &&& 0xFF) := by
  simp only [setBytes]
  rw [List.getElem?_set_ne (by omega),
    List.getElem?_set_self (by simp [List.length_set]; omega)]

theorem setBytes_get7 (m : List Nat) (address value : Nat) (h : address + 7 < m.length) :
    (setBytes m address value)[address + 7]? = some ((value >>> 56) &&& 0xFF) := by
  simp only [setBytes]
  rw [List.getElem?_set_self (by simp [List.length_set]; omega)]

/-- Reading back the 8 bytes written by `setBytes` reassembles `value`
(for `value < 2 ^ 64`). -/
theorem read_le_setBytes (s : State) (address value : Nat) (hv : value < 2 ^ 64)
    (hmem : s.program_map = setBytes m address value) (h : address + 7 < m.length) :
    s.read_le address = .ok value := by
  rw [State.read_le,
    read_le_go_step _ _ _ _ _ (by rw [hmem]; exact setBytes_get7 m address value h),
    read_le_go_step _ _ _ _ _ (by rw [hmem]; exact setBytes_get6 m address value h),
    read_le_go_step _ _ _ _ _ (by rw [hmem]; exact setBytes_get5 m address value h),
    read_le_go_step _ _ _ _ _ (by rw [hmem]; exact setBytes_get4 m address value h),
    read_le_go_step _ _ _ _ _ (by rw [hmem]; exact setBytes_get3 m address value h),
    read_le_go_step _ _ _ _ _ (by rw [hmem]; exact setBytes_get2 m address value h),
    read_le_go_step _ _ _ _ _ (by rw [hmem]; exact setBytes_get1 m address value h),
    read_le_go_step _ _ _ _ _ (by rw [hmem]; exact setBytes_get0 m address value h),
    read_le_go]
  rw [lor_disjoint _ _ _ (and_255_lt _), lor_disjoint _ _ _ (and_255_lt _),
    lor_disjoint _ _ _ (and_255_lt _), lor_disjoint _ _ _ (and_255_lt _),
    lor_disjoint _ _ _ (and_255_lt _), lor_disjoint _ _ _ (and_255_lt _),
    lor_disjoint _ _ _ (and_255_lt _), lor_disjoint _ _ _ (and_255_lt _)]
  simp only [and_255_eq_mod, Nat.shiftRight_eq_div_pow, Except.ok.injEq]
  norm_num
  omega

/-- C2: little-endian round trip — for every 64-bit value `v` and every
address with `addr + 7` inside the loaded memory, `write_le addr v`
succeeds and `read_le addr` on the resulting state returns `v`. -/
theorem write_read_roundtrip (s : State) (address value : Nat)
    (hv : value < 2 ^ 64) (h : address + 7 < s.program_map.length) :
    ∃ s', s.write_le address value = .ok s' ∧ s'.read_le address = .ok value :=
  ⟨_, write_le_ok s address value h, read_le_setBytes _ address value hv rfl h⟩

theorem write_read_roundtrip_witness :
    (3 : Nat) < 2 ^ 64 ∧ 2 + 7 < (List.replicate 10 0 : List Nat).length ∧
    ∃ s', State.write_le ⟨List.replicate 16 0, List.replicate 10 0, 0, 0⟩ 2 3 = .ok s' ∧
      s'.read_le 2 = .ok 3 :=
  ⟨by norm_num, by simp,
    write_read_roundtrip ⟨List.replicate 16 0, List.replicate 10 0, 0, 0⟩ 2 3
      (by norm_num) (by simp)⟩

theorem opq_post {s s' : State} {b vp : Nat} {res : Int}
    (hok : Except.ok (((if res = 0 then s.set_condition_code CC_ZERO_MASK
        else if res < 0 then s.set_condition_code CC_SIGN_MASK
        else s.set_condition_code 0).set_register b (u64_of_i64 res)).set_pc vp)
      = (Except.ok s' : Except Err State)) :
    s'.registers = s.registers.set b (u64_of_i64 res) ∧
    s'.program_counter = vp ∧
    ((s'.condition_code &&& CC_ZERO_MASK ≠ 0) ↔ res = 0) ∧
    ((s'.condition_code &&& CC_SIGN_MASK ≠ 0) ↔ res < 0) ∧
    ¬((s'.condition_code &&& CC_ZERO_MASK ≠ 0) ∧ (s'.condition_code &&& CC_SIGN_MASK ≠ 0)) := by
  have h := Except.ok.inj hok
  subst h
  by_cases h0 : res = 0
  · simp [h0, State.set_condition_code, State.set_register, State.set_pc,
      CC_ZERO_MASK, CC_SIGN_MASK]
  · by_cases hneg : res < 0
    · simp [h0, hneg, State.set_condition_code, State.set_register, State.set_pc,
        CC_ZERO_MASK, CC_SIGN_MASK]
    · simp [h0, hneg, State.set_condition_code, State.set_register, State.set_pc,
        CC_ZERO_MASK, CC_SIGN_MASK]

/-- C1: executing an OPQ instruction (ifun 0..6) stores the 64-bit signed
result `R` (`addq`: `R[rB]+R[rA]`; `subq`: `R[rB]-R[rA]`; `andq`; `xorq`;
`mulq`; `divq`; `modq`) in `R[rB]`, sets `pc` to `val_p`, and ASSIGNS the
condition code so that `ZERO` is set iff `R = 0` and `SIGN` is set iff
`R < 0`, with at most one of the two flags set. -/
theorem opq_semantics (instr : Instruction) (s s' : State) (a b : Nat)
    (hic : instr.icode = .IOPQ)
    (ha : instr.r_a = some a) (hb : instr.r_b = some b)
    (hifun : instr.ifun ≤ 6)
    (hok : execute_opq instr s = .ok s') :
    ∃ R : Int,
      (instr.ifun = 0 →
        R = wrap_i64 (i64_of_u64 (s.get_register b) + i64_of_u64 (s.get_register a))) ∧
      (instr.ifun = 1 →
        R = wrap_i64 (i64_of_u64 (s.get_register b) - i64_of_u64 (s.get_register a))) ∧
      (instr.ifun = 2 → R = i64_of_u64 (s.get_register b &&& s.get_register a)) ∧
      (instr.ifun = 3 → R = i64_of_u64 (s.get_register b ^^^ s.get_register a)) ∧
      (instr.ifun = 4 →
        R = wrap_i64 (i64_of_u64 (s.get_register b) * i64_of_u64 (s.get_register a))) ∧
      (instr.ifun = 5 →
        R = Int.tdiv (i64_of_u64 (s.get_register b)) (i64_of_u64 (s.get_register a))) ∧
      (instr.ifun = 6 →
        R = Int.tmod (i64_of_u64 (s.get_register b)) (i64_of_u64 (s.get_register a))) ∧
      s'.registers = s.registers.set b (u64_of_i64 R) ∧
      s'.program_counter = instr.val_p ∧
      ((s'.condition_code &&& CC_ZERO_MASK ≠ 0) ↔ R = 0) ∧
      ((s'.condition_code &&& CC_SIGN_MASK ≠ 0) ↔ R < 0) ∧
      ¬((s'.condition_code &&& CC_ZERO_MASK ≠ 0) ∧ (s'.condition_code &&& CC_SIGN_MASK ≠ 0)) := by
  obtain ⟨ic, ifun, ra, rb, vc, loc, vp⟩ := instr
  simp only at hic ha hb hifun hok ⊢
  subst hic ha hb
  simp only [execute_opq, unwrapO, Except.bind, bind] at hok
  interval_cases ifun
  · exact ⟨_, fun _ => by rw [Int.add_comm], by omega, by omega, by omega, by omega, by omega,
      by omega, opq_post hok⟩
  · exact ⟨_, by omega, fun _ => rfl, by omega, by omega, by omega, by omega, by omega,
      opq_post hok⟩
  · exact ⟨_, by omega, by omega, fun _ => rfl, by omega, by omega, by omega, by omega,
      opq_post hok⟩
  · exact ⟨_, by omega, by omega, by omega, fun _ => rfl, by omega, by omega, by omega,
      opq_post hok⟩
  · exact ⟨_, by omega, by omega, by omega, by omega, fun _ => rfl, by omega, by omega,
      opq_post hok⟩
  · split at hok <;> try omega
    · split at hok
      · exact absurd hok (by simp)
      · exact ⟨_, by omega, by omega, by omega, by omega, by omega, fun _ => rfl, by omega,
          opq_post hok⟩
    · exact absurd rfl (by assumption)
  · split at hok <;> try omega
    · split at hok
      · exact absurd hok (by simp)
      · exact ⟨_, by omega, by omega, by omega, by omega, by omega, by omega, fun _ => rfl,
          opq_post hok⟩
    · exact absurd rfl (by assumption)

theorem opq_semantics_witness :
    (Instruction.mk .IOPQ 1 (some 0) (some 3) none 0 2).ifun ≤ 6 ∧
    execute_opq (Instruction.mk .IOPQ 1 (some 0) (some 3) none 0 2)
        (State.mk [7, 0, 0, 5, 0, 0, 0, 0, 0, 0, 0, 0, 0, 0, 0, 0] [] 0 0) =
      .ok (State.mk [7, 0, 0, 18446744073709551614, 0, 0, 0, 0, 0, 0, 0, 0, 0, 0, 0, 0] [] 2 2) ∧
    ∃ R : Int,
      ((Instruction.mk ICode.IOPQ 1 (some 0) (some 3) none 0 2).ifun = 0 →
        R = wrap_i64 (i64_of_u64 ((State.mk [7, 0, 0, 5, 0, 0, 0, 0, 0, 0, 0, 0, 0, 0, 0, 0] [] 0 0).get_register 3) +
          i64_of_u64 ((State.mk [7, 0, 0, 5, 0, 0, 0, 0, 0, 0, 0, 0, 0, 0, 0, 0] [] 0 0).get_register 0))) ∧
      ((Instruction.mk ICode.IOPQ 1 (some 0) (some 3) none 0 2).ifun = 1 →
        R = wrap_i64 (i64_of_u64 ((State.mk [7, 0, 0, 5, 0, 0, 0, 0, 0, 0, 0, 0, 0, 0, 0, 0] [] 0 0).get_register 3) -
          i64_of_u64 ((State.mk [7, 0, 0, 5, 0, 0, 0, 0, 0, 0, 0, 0, 0, 0, 0, 0] [] 0 0).get_register 0))) ∧
      ((Instruction.mk ICode.IOPQ 1 (some 0) (some 3) none 0 2).ifun = 2 →
        R = i64_of_u64 ((State.mk [7, 0, 0, 5, 0, 0, 0, 0, 0, 0, 0, 0, 0, 0, 0, 0] [] 0 0).get_register 3 &&&
          (State.mk [7, 0, 0, 5, 0, 0, 0, 0, 0, 0, 0, 0, 0, 0, 0, 0] [] 0 0).get_register 0)) ∧
      ((Instruction.mk ICode.IOPQ 1 (some 0) (some 3) none 0 2).ifun = 3 →
        R = i64_of_u64 ((State.mk [7, 0, 0, 5, 0, 0, 0, 0, 0, 0, 0, 0, 0, 0, 0, 0] [] 0 0).get_register 3 ^^^
          (State.mk [7, 0, 0, 5, 0, 0, 0, 0, 0, 0, 0, 0, 0, 0, 0, 0] [] 0 0).get_register 0)) ∧
      ((Instruction.mk ICode.IOPQ 1 (some 0) (some 3) none 0 2).ifun = 4 →
        R = wrap_i64 (i64_of_u64 ((State.mk [7, 0, 0, 5, 0, 0, 0, 0, 0, 0, 0, 0, 0, 0, 0, 0] [] 0 0).get_register 3) *
          i64_of_u64 ((State.mk [7, 0, 0, 5, 0, 0, 0, 0, 0, 0, 0, 0, 0, 0, 0, 0] [] 0 0).get_register 0))) ∧
      ((Instruction.mk ICode.IOPQ 1 (some 0) (some 3) none 0 2).ifun = 5 →
        R = Int.tdiv (i64_of_u64 ((State.mk [7, 0, 0, 5, 0, 0, 0, 0, 0, 0, 0, 0, 0, 0, 0, 0] [] 0 0).get_register 3))
          (i64_of_u64 ((State.mk [7, 0, 0, 5, 0, 0, 0, 0, 0, 0, 0, 0, 0, 0, 0, 0] [] 0 0).get_register 0))) ∧
      ((Instruction.mk ICode.IOPQ 1 (some 0) (some 3) none 0 2).ifun = 6 →
        R = Int.tmod (i64_of_u64 ((State.mk [7, 0, 0, 5, 0, 0, 0, 0, 0, 0, 0, 0, 0, 0, 0, 0] [] 0 0).get_register 3))
          (i64_of_u64 ((State.mk [7, 0, 0, 5, 0, 0, 0, 0, 0, 0, 0, 0, 0, 0, 0, 0] [] 0 0).get_register 0))) ∧
      (State.mk [7, 0, 0, 18446744073709551614, 0, 0, 0, 0, 0, 0, 0, 0, 0, 0, 0, 0] [] 2 2).registers =
        (State.mk [7, 0, 0, 5, 0, 0, 0, 0, 0, 0, 0, 0, 0, 0, 0, 0] [] 0 0).registers.set 3 (u64_of_i64 R) ∧
      (State.mk [7, 0, 0, 18446744073709551614, 0, 0, 0, 0, 0, 0, 0, 0, 0, 0, 0, 0] [] 2 2).program_counter =
        (Instruction.mk ICode.IOPQ 1 (some 0) (some 3) none 0 2).val_p ∧
      (((State.mk [7, 0, 0, 18446744073709551614, 0, 0, 0, 0, 0, 0, 0, 0, 0, 0, 0, 0] [] 2 2).condition_code &&& CC_ZERO_MASK ≠ 0) ↔ R = 0) ∧
      (((State.mk [7, 0, 0, 18446744073709551614, 0, 0, 0, 0, 0, 0, 0, 0, 0, 0, 0, 0] [] 2 2).condition_code &&& CC_SIGN_MASK ≠ 0) ↔ R < 0) ∧
      ¬(((State.mk [7, 0, 0, 18446744073709551614, 0, 0, 0, 0, 0, 0, 0, 0, 0, 0, 0, 0] [] 2 2).condition_code &&& CC_ZERO_MASK ≠ 0) ∧
        ((State.mk [7, 0, 0, 18446744073709551614, 0, 0, 0, 0, 0, 0, 0, 0, 0, 0, 0, 0] [] 2 2).condition_code &&& CC_SIGN_MASK ≠ 0)) :=
  ⟨by decide, by rfl,
    opq_semantics (Instruction.mk .IOPQ 1 (some 0) (some 3) none 0 2)
      (State.mk [7, 0, 0, 5, 0, 0, 0, 0, 0, 0, 0, 0, 0, 0, 0, 0] [] 0 0)
      (State.mk [7, 0, 0, 18446744073709551614, 0, 0, 0, 0, 0, 0, 0, 0, 0, 0, 0, 0] [] 2 2)
      0 3 rfl rfl rfl (by decide) (by rfl)⟩

/-- C10: executing OPQ with ifun 5 (divq) or 6 (modq) is total under the
precondition that the divisor `R[rA]` is nonzero (as i64) and the pair is
not the overflow case `R[rB] = -2^63, R[rA] = -1`: the division is
unguarded, a zero divisor is never reported as an error value, and under
the precondition the panic branch is unreachable, so execution succeeds. -/
theorem opq_div_total (instr : Instruction) (s : State) (a b : Nat)
    (hic : instr.icode = .IOPQ)
    (ha : instr.r_a = some a) (hb : instr.r_b = some b)
    (hifun : instr.ifun = 5 ∨ instr.ifun = 6)
    (hdz : i64_of_u64 (s.get_register a) ≠ 0)
    (hov : ¬(i64_of_u64 (s.get_register b) = -(2 ^ 63) ∧ i64_of_u64 (s.get_register a) = -1)) :
    ∃ s', execute_opq instr s = .ok s' := by
  obtain ⟨ic, ifun, ra, rb, vc, loc, vp⟩ := instr
  simp only at ha hb hifun
  subst ha hb
  rcases hifun with h | h <;> subst h <;>
    (norm_num at hov;
     simp only [execute_opq, unwrapO, hdz, Except.bind, bind];
     simp only [hdz, false_or];
     rw [if_neg (by intro hcon; exact hov hcon.1 hcon.2)];
     exact ⟨_, rfl⟩)

theorem opq_div_total_witness :
    (Instruction.mk .IOPQ 5 (some 0) (some 3) none 0 2).icode = .IOPQ ∧
    i64_of_u64 ((State.mk [2, 0, 0, 9, 0, 0, 0, 0, 0, 0, 0, 0, 0, 0, 0, 0] [] 0 0).get_register 0) ≠ 0 ∧
    ∃ s', execute_opq (Instruction.mk .IOPQ 5 (some 0) (some 3) none 0 2)
      (State.mk [2, 0, 0, 9, 0, 0, 0, 0, 0, 0, 0, 0, 0, 0, 0, 0] [] 0 0) = .ok s' :=
  ⟨rfl, by decide,
    opq_div_total (Instruction.mk .IOPQ 5 (some 0) (some 3) none 0 2)
      (State.mk [2, 0, 0, 9, 0, 0, 0, 0, 0, 0, 0, 0, 0, 0, 0, 0] [] 0 0)
      0 3 rfl rfl rfl (Or.inl rfl) (by decide) (by decide)⟩

theorem read_le_go_ok (s : State) (address : Nat) :
    ∀ count res, address + count ≤ s.program_map.length →
      ∃ v, read_le_go s address res count = .ok v := by
  intro count
  induction count with
  | zero => exact fun res _ => ⟨res, rfl⟩
  | succ k ih =>
    intro res hle
    obtain ⟨v, hv⟩ := ih ((res <<< 8) ||| s.program_map.getD (address + k) 0) (by omega)
    have hb : s.program_map[address + k]? = some (s.program_map.getD (address + k) 0) := by
      rw [List.getD_eq_getElem _ _ (by omega)]
      exact List.getElem?_eq_getElem (by omega)
    exact ⟨v, by rw [read_le_go_step _ _ _ _ _ hb]; exact hv⟩

theorem read_le_ok_of_lt (s : State) (address : Nat)
    (h : address + 7 < s.program_map.length) :
    ∃ v, s.read_le address = .ok v :=
  read_le_go_ok s address 8 0 (by omega)

/-- C3 (the code at the failing input): out-of-range `read_le`/`write_le`
do not return an OutOfBounds error value — they panic through the
unchecked `Vec` index (modelled as `Err.panic`), contradicting their own
doc comments ("Returns a Result, fails if memory is out of bounds", while
the functions always return `Ok` and never construct an error value); an
in-range access succeeds.  Program of 8 bytes: accesses at address 1
touch byte 8, which is out of `[0, program_size)`. -/
theorem read_write_le_oob_panics :
    (State.mk (List.replicate 16 0) (List.replicate 8 0) 0 0).read_le 1 = .error .panic ∧
    (State.mk (List.replicate 16 0) (List.replicate 8 0) 0 0).write_le 1 5 = .error .panic ∧
    (State.mk (List.replicate 16 0) (List.replicate 8 0) 0 0).read_le 0 = .ok 0 ∧
    ∃ s', (State.mk (List.replicate 16 0) (List.replicate 8 0) 0 0).write_le 0 5 = .ok s' :=
  ⟨rfl, rfl, rfl, ⟨_, rfl⟩⟩

/-- C4 counterexample: the claim's "decoding succeeds exactly when the
high nibble is a defined icode" fails on a truncated instruction.  With
memory `[0x30]` (high nibble 3 = IRMOVQ, a defined icode) at PC 0,
`Instruction::new` panics reading the missing operand bytes instead of
succeeding. -/
theorem decode_truncated_counterexample :
    ((0x30 >>> 4) &&& 0x0F) = 3 ∧ (3 : Nat) ≤ 0xB ∧
    Instruction.new (State.mk (List.replicate 16 0) [0x30] 0 0) = .error .panic :=
  ⟨rfl, by norm_num, rfl⟩

/-- C4 (amended): when the byte at PC exists AND all bytes of the
instruction (per the fixed length of its icode) lie within memory,
decoding succeeds exactly when the high nibble is one of the 12 defined
icodes `0x0..0xB` (returning `InvalidICode` otherwise), and on success the
instruction's `location` is PC and its `val_p` is PC plus the icode's
fixed length (1 for HALT/NOP/RET, 2 for RRMOVXX/OPQ/PUSHQ/POPQ, 9 for
JXX/CALL, 10 for IRMOVQ/RMMOVQ/MRMOVQ). -/
theorem decode_amended (s : State)
    (h1 : s.program_counter < s.program_map.length)
    (h2 : s.program_counter +
        instr_length ((s.program_map.getD s.program_counter 0 >>> 4) &&& 0x0F)
      ≤ s.program_map.length) :
    (((s.program_map.getD s.program_counter 0 >>> 4) &&& 0x0F) ≤ 0xB →
      ∃ instr, Instruction.new s = .ok instr ∧
        instr.location = s.program_counter ∧
        instr.val_p = s.program_counter +
          instr_length ((s.program_map.getD s.program_counter 0 >>> 4) &&& 0x0F)) ∧
    (0xB < ((s.program_map.getD s.program_counter 0 >>> 4) &&& 0x0F) →
      Instruction.new s = .error .invalidICode) := by
  have hb0 : s.program_map[s.program_counter]? = some (s.program_map.getD s.program_counter 0) := by
    rw [List.getD_eq_getElem _ _ h1]
    exact List.getElem?_eq_getElem h1
  have hn16 : ((s.program_map.getD s.program_counter 0 >>> 4) &&& 0x0F) < 16 := by
    have h := Nat.and_pow_two_sub_one_eq_mod (s.program_map.getD s.program_counter 0 >>> 4) 4
    norm_num at h ⊢
    omega
  generalize hgen : ((s.program_map.getD s.program_counter 0 >>> 4) &&& 0x0F) = n at h2 hn16 ⊢
  interval_cases n
  · norm_num [instr_length] at h2
    refine ⟨fun hle => ?_, fun hgt => by omega⟩
    refine ⟨⟨.IHALT, s.program_map.getD s.program_counter 0 &&& 0x0F, none, none, none, s.program_counter, s.program_counter + 1⟩, ?_, rfl, by norm_num [instr_length]⟩
    simp only [Instruction.new, State.read_byte, State.get_pc, hb0, hgen, from_halt, get_icode_ifun, unwrapO, icodeFromNat, Except.bind, bind]
    norm_num
  · norm_num [instr_length] at h2
    refine ⟨fun hle => ?_, fun hgt => by omega⟩
    refine ⟨⟨.INOP, s.program_map.getD s.program_counter 0 &&& 0x0F, none, none, none, s.program_counter, s.program_counter + 1⟩, ?_, rfl, by norm_num [instr_length]⟩
    simp only [Instruction.new, State.read_byte, State.get_pc, hb0, hgen, from_nop, get_icode_ifun, unwrapO, icodeFromNat, Except.bind, bind]
    norm_num
  · norm_num [instr_length] at h2
    refine ⟨fun hle => ?_, fun hgt => by omega⟩
    have hb1 : s.program_map[s.program_counter + 1]? = some (s.program_map.getD (s.program_counter + 1) 0) := by
      rw [List.getD_eq_getElem _ _ (by omega)]
      exact List.getElem?_eq_getElem (by omega)
    refine ⟨⟨.IRRMVXX, s.program_map.getD s.program_counter 0 &&& 0x0F, some ((s.program_map.getD (s.program_counter + 1) 0 >>> 4) &&& 0x0F), some (s.program_map.getD (s.program_counter + 1) 0 &&& 0x0F), none, s.program_counter, s.program_counter + 2⟩, ?_, rfl, by norm_num [instr_length]⟩
    simp only [Instruction.new, State.read_byte, State.get_pc, hb0, hgen, from_rrmovxx, get_icode_ifun, unwrapO, icodeFromNat, Except.bind, bind, get_registers, hb1]
    norm_num
  · norm_num [instr_length] at h2
    refine ⟨fun hle => ?_, fun hgt => by omega⟩
    obtain ⟨v, hv⟩ := read_le_ok_of_lt s (s.program_counter + 2) (by omega)
    have hb1 : s.program_map[s.program_counter + 1]? = some (s.program_map.getD (s.program_counter + 1) 0) := by
      rw [List.getD_eq_getElem _ _ (by omega)]
      exact List.getElem?_eq_getElem (by omega)
    refine ⟨⟨.IIRMOVQ, s.program_map.getD s.program_counter 0 &&& 0x0F, some ((s.program_map.getD (s.program_counter + 1) 0 >>> 4) &&& 0x0F), some (s.program_map.getD (s.program_counter + 1) 0 &&& 0x0F), some v, s.program_counter, s.program_counter + 10⟩, ?_, rfl, by norm_num [instr_length]⟩
    simp only [Instruction.new, State.read_byte, State.get_pc, hb0, hgen, from_irmovq, get_icode_ifun, unwrapO, icodeFromNat, Except.bind, bind, hv, get_registers, hb1]
    norm_num
  · norm_num [instr_length] at h2
    refine ⟨fun hle => ?_, fun hgt => by omega⟩
    obtain ⟨v, hv⟩ := read_le_ok_of_lt s (s.program_counter + 2) (by omega)
    have hb1 : s.program_map[s.program_counter + 1]? = some (s.program_map.getD (s.program_counter + 1) 0) := by
      rw [List.getD_eq_getElem _ _ (by omega)]
      exact List.getElem?_eq_getElem (by omega)
    refine ⟨⟨.IRMMOVQ, s.program_map.getD s.program_counter 0 &&& 0x0F, some ((s.program_map.getD (s.program_counter + 1) 0 >>> 4) &&& 0x0F), some (s.program_map.getD (s.program_counter + 1) 0 &&& 0x0F), some v, s.program_counter, s.program_counter + 10⟩, ?_, rfl, by norm_num [instr_length]⟩
    simp only [Instruction.new, State.read_byte, State.get_pc, hb0, hgen, from_rmmovq, get_icode_ifun, unwrapO, icodeFromNat, Except.bind, bind, hv, get_registers, hb1]
    norm_num
  · norm_num [instr_length] at h2
    refine ⟨fun hle => ?_, fun hgt => by omega⟩
    obtain ⟨v, hv⟩ := read_le_ok_of_lt s (s.program_counter + 2) (by omega)
    have hb1 : s.program_map[s.program_counter + 1]? = some (s.program_map.getD (s.program_counter + 1) 0) := by
      rw [List.getD_eq_getElem _ _ (by omega)]
      exact List.getElem?_eq_getElem (by omega)
    refine ⟨⟨.IMRMOVQ, s.program_map.getD s.program_counter 0 &&& 0x0F, some ((s.program_map.getD (s.program_counter + 1) 0 >>> 4) &&& 0x0F), some (s.program_map.getD (s.program_counter + 1) 0 &&& 0x0F), some v, s.program_counter, s.program_counter + 10⟩, ?_, rfl, by norm_num [instr_length]⟩
    simp only [Instruction.new, State.read_byte, State.get_pc, hb0, hgen, from_mrmovq, get_icode_ifun, unwrapO, icodeFromNat, Except.bind, bind, hv, get_registers, hb1]
    norm_num
  · norm_num [instr_length] at h2
    refine ⟨fun hle => ?_, fun hgt => by omega⟩
    have hb1 : s.program_map[s.program_counter + 1]? = some (s.program_map.getD (s.program_counter + 1) 0) := by
      rw [List.getD_eq_getElem _ _ (by omega)]
      exact List.getElem?_eq_getElem (by omega)
    refine ⟨⟨.IOPQ, s.program_map.getD s.program_counter 0 &&& 0x0F, some ((s.program_map.getD (s.program_counter + 1) 0 >>> 4) &&& 0x0F), some (s.program_map.getD (s.program_counter + 1) 0 &&& 0x0F), none, s.program_counter, s.program_counter + 2⟩, ?_, rfl, by norm_num [instr_length]⟩
    simp only [Instruction.new, State.read_byte, State.get_pc, hb0, hgen, from_opq, get_icode_ifun, unwrapO, icodeFromNat, Except.bind, bind, get_registers, hb1]
    norm_num
  · norm_num [instr_length] at h2
    refine ⟨fun hle => ?_, fun hgt => by omega⟩
    obtain ⟨v, hv⟩ := read_le_ok_of_lt s (s.program_counter + 1) (by omega)
    refine ⟨⟨.IJXX, s.program_map.getD s.program_counter 0 &&& 0x0F, none, none, some v, s.program_counter, s.program_counter + 9⟩, ?_, rfl, by norm_num [instr_length]⟩
    simp only [Instruction.new, State.read_byte, State.get_pc, hb0, hgen, from_jmp, get_icode_ifun, unwrapO, icodeFromNat, Except.bind, bind, hv]
    norm_num
  · norm_num [instr_length] at h2
    refine ⟨fun hle => ?_, fun hgt => by omega⟩
    obtain ⟨v, hv⟩ := read_le_ok_of_lt s (s.program_counter + 1) (by omega)
    refine ⟨⟨.ICALL, s.program_map.getD s.program_counter 0 &&& 0x0F, none, none, some v, s.program_counter, s.program_counter + 9⟩, ?_, rfl, by norm_num [instr_length]⟩
    simp only [Instruction.new, State.read_byte, State.get_pc, hb0, hgen, from_call, get_icode_ifun, unwrapO, icodeFromNat, Except.bind, bind, hv]
    norm_num
  · norm_num [instr_length] at h2
    refine ⟨fun hle => ?_, fun hgt => by omega⟩
    refine ⟨⟨.IRET, s.program_map.getD s.program_counter 0 &&& 0x0F, none, none, none, s.program_counter, s.program_counter + 1⟩, ?_, rfl, by norm_num [instr_length]⟩
    simp only [Instruction.new, State.read_byte, State.get_pc, hb0, hgen, from_ret, get_icode_ifun, unwrapO, icodeFromNat, Except.bind, bind]
    norm_num
  · norm_num [instr_length] at h2
    refine ⟨fun hle => ?_, fun hgt => by omega⟩
    have hb1 : s.program_map[s.program_counter + 1]? = some (s.program_map.getD (s.program_counter + 1) 0) := by
      rw [List.getD_eq_getElem _ _ (by omega)]
      exact List.getElem?_eq_getElem (by omega)
    refine ⟨⟨.IPUSHQ, s.program_map.getD s.program_counter 0 &&& 0x0F, some ((s.program_map.getD (s.program_counter + 1) 0 >>> 4) &&& 0x0F), some (s.program_map.getD (s.program_counter + 1) 0 &&& 0x0F), none, s.program_counter, s.program_counter + 2⟩, ?_, rfl, by norm_num [instr_length]⟩
    simp only [Instruction.new, State.read_byte, State.get_pc, hb0, hgen, from_push, get_icode_ifun, unwrapO, icodeFromNat, Except.bind, bind, get_registers, hb1]
    norm_num
  · norm_num [instr_length] at h2
    refine ⟨fun hle => ?_, fun hgt => by omega⟩
    have hb1 : s.program_map[s.program_counter + 1]? = some (s.program_map.getD (s.program_counter + 1) 0) := by
      rw [List.getD_eq_getElem _ _ (by omega)]
      exact List.getElem?_eq_getElem (by omega)
    refine ⟨⟨.IPOPQ, s.program_map.getD s.program_counter 0 &&& 0x0F, some ((s.program_map.getD (s.program_counter + 1) 0 >>> 4) &&& 0x0F), some (s.program_map.getD (s.program_counter + 1) 0 &&& 0x0F), none, s.program_counter, s.program_counter + 2⟩, ?_, rfl, by norm_num [instr_length]⟩
    simp only [Instruction.new, State.read_byte, State.get_pc, hb0, hgen, from_pop, get_icode_ifun, unwrapO, icodeFromNat, Except.bind, bind, get_registers, hb1]
    norm_num
  · refine ⟨fun hle => by omega, fun _ => ?_⟩
    simp only [Instruction.new, State.read_byte, State.get_pc, hb0, hgen, Except.bind, bind]
    norm_num
  · refine ⟨fun hle => by omega, fun _ => ?_⟩
    simp only [Instruction.new, State.read_byte, State.get_pc, hb0, hgen, Except.bind, bind]
    norm_num
  · refine ⟨fun hle => by omega, fun _ => ?_⟩
    simp only [Instruction.new, State.read_byte, State.get_pc, hb0, hgen, Except.bind, bind]
    norm_num
  · refine ⟨fun hle => by omega, fun _ => ?_⟩
    simp only [Instruction.new, State.read_byte, State.get_pc, hb0, hgen, Except.bind, bind]
    norm_num

theorem decode_amended_witness :
    (State.mk (List.replicate 16 0) [0x20, 0x01] 0 0).program_counter < (State.mk (List.replicate 16 0) [0x20, 0x01] 0 0).program_map.length ∧
    (State.mk (List.replicate 16 0) [0x20, 0x01] 0 0).program_counter +
        instr_length (((State.mk (List.replicate 16 0) [0x20, 0x01] 0 0).program_map.getD (State.mk (List.replicate 16 0) [0x20, 0x01] 0 0).program_counter 0 >>> 4) &&& 0x0F)
      ≤ (State.mk (List.replicate 16 0) [0x20, 0x01] 0 0).program_map.length ∧
    ((((((State.mk (List.replicate 16 0) [0x20, 0x01] 0 0).program_map.getD (State.mk (List.replicate 16 0) [0x20, 0x01] 0 0).program_counter 0 >>> 4) &&& 0x0F) ≤ 0xB →
      ∃ instr, Instruction.new (State.mk (List.replicate 16 0) [0x20, 0x01] 0 0) = .ok instr ∧
        instr.location = (State.mk (List.replicate 16 0) [0x20, 0x01] 0 0).program_counter ∧
        instr.val_p = (State.mk (List.replicate 16 0) [0x20, 0x01] 0 0).program_counter +
          instr_length (((State.mk (List.replicate 16 0) [0x20, 0x01] 0 0).program_map.getD (State.mk (List.replicate 16 0) [0x20, 0x01] 0 0).program_counter 0 >>> 4) &&& 0x0F)) ∧
    (0xB < (((State.mk (List.replicate 16 0) [0x20, 0x01] 0 0).program_map.getD (State.mk (List.replicate 16 0) [0x20, 0x01] 0 0).program_counter 0 >>> 4) &&& 0x0F) →
      Instruction.new (State.mk (List.replicate 16 0) [0x20, 0x01] 0 0) = .error .invalidICode))) :=
  ⟨by decide, by decide, decode_amended (State.mk (List.replicate 16 0) [0x20, 0x01] 0 0) (by decide) (by decide)⟩

theorem getD_set_self (l : List Nat) (i v : Nat) (h : i < l.length) :
    (l.set i v).getD i 0 = v := by
  rw [List.getD_eq_getElem?_getD, List.getElem?_set_self h]
  rfl

/-- C7: a CALL at address L (so `val_p = L + 9`) followed immediately by a
RET with no intervening mutation of `%rsp` or of the stack word: right
after the CALL, `%rsp` has decreased by 8 and `mem_le[%rsp]` holds
`val_p`; after the RET, the PC equals the CALL's `val_p = L + 9` and
`%rsp` is back to its pre-CALL value. -/
theorem call_ret_roundtrip (instr retInstr : Instruction) (s : State) (tgt : Nat)
    (hvp9 : instr.val_p = instr.location + 9)
    (hvc : instr.val_c = some tgt)
    (hrsp8 : 8 ≤ s.get_register 4)
    (hrsp64 : s.get_register 4 < 2 ^ 64)
    (hmem : s.get_register 4 - 1 < s.program_map.length)
    (hvp64 : instr.val_p < 2 ^ 64)
    (hreg : 4 < s.registers.length) :
    ∃ s₁ s₂,
      execute_call instr s = .ok s₁ ∧
      s₁.get_register 4 = s.get_register 4 - 8 ∧
      s₁.read_le (s.get_register 4 - 8) = .ok (instr.location + 9) ∧
      s₁.program_counter = tgt ∧
      execute_ret retInstr s₁ = .ok s₂ ∧
      s₂.program_counter = instr.location + 9 ∧
      s₂.get_register 4 = s.get_register 4 := by
  have hsub : sub64 (s.get_register 4) 8 = s.get_register 4 - 8 := by
    simp only [sub64, U64MOD]
    omega
  have hw := write_le_ok s (s.get_register 4 - 8) instr.val_p (by omega)
  have hcall : execute_call instr s =
      .ok (State.mk (s.registers.set 4 (s.get_register 4 - 8))
        (setBytes s.program_map (s.get_register 4 - 8) instr.val_p)
        s.condition_code tgt) := by
    simp only [execute_call, hsub, hw, hvc, unwrapO, Except.bind, bind]
    rfl
  have hr4 : (State.mk (s.registers.set 4 (s.get_register 4 - 8))
      (setBytes s.program_map (s.get_register 4 - 8) instr.val_p)
      s.condition_code tgt).get_register 4 = s.get_register 4 - 8 := by
    simp only [State.get_register]
    exact getD_set_self _ _ _ hreg
  have hread : (State.mk (s.registers.set 4 (s.get_register 4 - 8))
      (setBytes s.program_map (s.get_register 4 - 8) instr.val_p)
      s.condition_code tgt).read_le (s.get_register 4 - 8) = .ok instr.val_p :=
    read_le_setBytes _ _ _ hvp64 rfl (by omega)
  have hret : execute_ret retInstr
      (State.mk (s.registers.set 4 (s.get_register 4 - 8))
        (setBytes s.program_map (s.get_register 4 - 8) instr.val_p)
        s.condition_code tgt) =
      .ok (State.mk ((s.registers.set 4 (s.get_register 4 - 8)).set 4
          (add64 (s.get_register 4 - 8) 8))
        (setBytes s.program_map (s.get_register 4 - 8) instr.val_p)
        s.condition_code instr.val_p) := by
    simp only [execute_ret, Except.bind, bind, hr4, hread]
    rfl
  refine ⟨_, _, hcall, hr4, by rw [hread, hvp9], rfl, hret, by simp only [hvp9], ?_⟩
  simp only [State.get_register] at hrsp8 hrsp64 ⊢
  rw [List.set_set]
  rw [getD_set_self _ _ _ hreg]
  simp only [add64, U64MOD]
  omega

theorem call_ret_roundtrip_witness :
    8 ≤ (State.mk [0, 0, 0, 0, 32, 0, 0, 0, 0, 0, 0, 0, 0, 0, 0, 0]
      (List.replicate 32 0) 0 0).get_register 4 ∧
    ∃ s₁ s₂,
      execute_call (Instruction.mk .ICALL 0 none none (some 48) 0 9)
        (State.mk [0, 0, 0, 0, 32, 0, 0, 0, 0, 0, 0, 0, 0, 0, 0, 0]
          (List.replicate 32 0) 0 0) = .ok s₁ ∧
      s₁.get_register 4 = (State.mk [0, 0, 0, 0, 32, 0, 0, 0, 0, 0, 0, 0, 0, 0, 0, 0]
        (List.replicate 32 0) 0 0).get_register 4 - 8 ∧
      s₁.read_le ((State.mk [0, 0, 0, 0, 32, 0, 0, 0, 0, 0, 0, 0, 0, 0, 0, 0]
        (List.replicate 32 0) 0 0).get_register 4 - 8) =
        .ok ((Instruction.mk ICode.ICALL 0 none none (some 48) 0 9).location + 9) ∧
      s₁.program_counter = 48 ∧
      execute_ret (Instruction.mk .IRET 0 none none none 20 21) s₁ = .ok s₂ ∧
      s₂.program_counter = (Instruction.mk ICode.ICALL 0 none none (some 48) 0 9).location + 9 ∧
      s₂.get_register 4 = (State.mk [0, 0, 0, 0, 32, 0, 0, 0, 0, 0, 0, 0, 0, 0, 0, 0]
        (List.replicate 32 0) 0 0).get_register 4 :=
  ⟨by decide,
    call_ret_roundtrip (Instruction.mk .ICALL 0 none none (some 48) 0 9)
      (Instruction.mk .IRET 0 none none none 20 21)
      (State.mk [0, 0, 0, 0, 32, 0, 0, 0, 0, 0, 0, 0, 0, 0, 0, 0]
        (List.replicate 32 0) 0 0) 48
      rfl rfl (by decide) (by decide) (by decide) (by decide) (by decide)⟩

/-- C8 counterexample: the claim predicts `pushq %rsp` stores the
DECREMENTED stack pointer; the code reads `R[rA]` before updating `%rsp`,
so with `%rsp = 16` the pushed word is 16 (the old value), not 8. -/
theorem push_rsp_counterexample :
    execute_push (Instruction.mk .IPUSHQ 0 (some 4) (some 0xF) none 0 2)
        (State.mk [0, 0, 0, 0, 16, 0, 0, 0, 0, 0, 0, 0, 0, 0, 0, 0] (List.replicate 24 0) 0 0) =
      .ok (State.mk [0, 0, 0, 0, 8, 0, 0, 0, 0, 0, 0, 0, 0, 0, 0, 0]
        [0, 0, 0, 0, 0, 0, 0, 0, 16, 0, 0, 0, 0, 0, 0, 0, 0, 0, 0, 0, 0, 0, 0, 0] 0 2) ∧
    (State.mk [0, 0, 0, 0, 8, 0, 0, 0, 0, 0, 0, 0, 0, 0, 0, 0]
        [0, 0, 0, 0, 0, 0, 0, 0, 16, 0, 0, 0, 0, 0, 0, 0, 0, 0, 0, 0, 0, 0, 0, 0] 0 2).read_le 8 =
      .ok 16 ∧
    ¬((State.mk [0, 0, 0, 0, 8, 0, 0, 0, 0, 0, 0, 0, 0, 0, 0, 0]
        [0, 0, 0, 0, 0, 0, 0, 0, 16, 0, 0, 0, 0, 0, 0, 0, 0, 0, 0, 0, 0, 0, 0, 0] 0 2).read_le 8 =
      .ok 8) := by
  refine ⟨by rfl, by rfl, fun h => ?_⟩
  rw [show (State.mk [0, 0, 0, 0, 8, 0, 0, 0, 0, 0, 0, 0, 0, 0, 0, 0]
      [0, 0, 0, 0, 0, 0, 0, 0, 16, 0, 0, 0, 0, 0, 0, 0, 0, 0, 0, 0, 0, 0, 0, 0] 0 2).read_le 8 =
    .ok 16 from rfl] at h
  exact absurd (Except.ok.inj h) (by decide)

/-- C8 (amended): PUSHQ writes the value of `R[rA]` read BEFORE the
stack-pointer update to `mem_le[R[4] - 8]`, then sets `R[4] ← R[4] - 8`
and `pc ← val_p`; in particular `pushq %rsp` stores the original,
undecremented stack-pointer value. -/
theorem push_semantics (instr : Instruction) (s : State) (rA : Nat)
    (ha : instr.r_a = some rA)
    (hrsp8 : 8 ≤ s.get_register 4)
    (hrsp64 : s.get_register 4 < 2 ^ 64)
    (hmem : s.get_register 4 - 1 < s.program_map.length)
    (hv64 : s.get_register rA < 2 ^ 64)
    (hreg : 4 < s.registers.length) :
    ∃ s', execute_push instr s = .ok s' ∧
      s'.get_register 4 = s.get_register 4 - 8 ∧
      s'.read_le (s.get_register 4 - 8) = .ok (s.get_register rA) ∧
      s'.program_counter = instr.val_p := by
  have hsub : sub64 (s.get_register 4) 8 = s.get_register 4 - 8 := by
    simp only [sub64, U64MOD]
    omega
  have hw := write_le_ok s (s.get_register 4 - 8) (s.get_register rA) (by omega)
  have hpush : execute_push instr s =
      .ok (State.mk (s.registers.set 4 (s.get_register 4 - 8))
        (setBytes s.program_map (s.get_register 4 - 8) (s.get_register rA))
        s.condition_code instr.val_p) := by
    simp only [execute_push, hsub, ha, hw, unwrapO, Except.bind, bind]
    rfl
  refine ⟨_, hpush, ?_, read_le_setBytes _ _ _ hv64 rfl (by omega), rfl⟩
  simp only [State.get_register]
  exact getD_set_self _ _ _ hreg

theorem push_semantics_witness :
    8 ≤ (State.mk [0, 0, 0, 0, 16, 0, 0, 0, 0, 0, 0, 0, 0, 0, 0, 0]
      (List.replicate 24 0) 0 0).get_register 4 ∧
    ∃ s', execute_push (Instruction.mk .IPUSHQ 0 (some 4) (some 0xF) none 0 2)
        (State.mk [0, 0, 0, 0, 16, 0, 0, 0, 0, 0, 0, 0, 0, 0, 0, 0]
          (List.replicate 24 0) 0 0) = .ok s' ∧
      s'.get_register 4 = (State.mk [0, 0, 0, 0, 16, 0, 0, 0, 0, 0, 0, 0, 0, 0, 0, 0]
        (List.replicate 24 0) 0 0).get_register 4 - 8 ∧
      s'.read_le ((State.mk [0, 0, 0, 0, 16, 0, 0, 0, 0, 0, 0, 0, 0, 0, 0, 0]
        (List.replicate 24 0) 0 0).get_register 4 - 8) =
        .ok ((State.mk [0, 0, 0, 0, 16, 0, 0, 0, 0, 0, 0, 0, 0, 0, 0, 0]
          (List.replicate 24 0) 0 0).get_register 4) ∧
      s'.program_counter = (Instruction.mk ICode.IPUSHQ 0 (some 4) (some 0xF) none 0 2).val_p :=
  ⟨by decide,
    push_semantics (Instruction.mk .IPUSHQ 0 (some 4) (some 0xF) none 0 2)
      (State.mk [0, 0, 0, 0, 16, 0, 0, 0, 0, 0, 0, 0, 0, 0, 0, 0] (List.replicate 24 0) 0 0)
      4 rfl (by decide) (by decide) (by decide) (by decide) (by decide)⟩

theorem bind_ok {α β : Type} {x : Except Err α} {k : α → Except Err β} {v : β}
    (h : Except.bind x k = .ok v) : ∃ a, x = .ok a ∧ k a = .ok v := by
  cases x with
  | ok a => exact ⟨a, rfl, h⟩
  | error e => simp [Except.bind] at h

theorem new_location (s : State) (instr : Instruction)
    (h : Instruction.new s = .ok instr) : instr.location = s.program_counter := by
  cases hbyte : s.program_map[s.program_counter]? with
  | none =>
    unfold Instruction.new at h
    rw [show State.read_byte s s.get_pc = .error .panic by
      simp [State.read_byte, State.get_pc, hbyte]] at h
    exact absurd h (by simp [Except.bind, bind])
  | some byte =>
    unfold Instruction.new at h
    obtain ⟨byte2, hb2, h⟩ := bind_ok h
    rw [show State.read_byte s s.get_pc = .ok byte by
      simp [State.read_byte, State.get_pc, hbyte]] at hb2
    cases Except.ok.inj hb2
    dsimp only at h
    by_cases hc0 : (byte >>> 4) &&& 0x0F = 0x0
    · rw [if_pos hc0] at h
      simp only [from_halt] at h
      obtain ⟨p0, -, h⟩ := bind_ok h
      obtain ⟨a0, b0⟩ := p0
      try dsimp only at h
      obtain ⟨x1, -, h⟩ := bind_ok h
      try dsimp only at h
      exact (Except.ok.inj h) ▸ rfl
    · rw [if_neg hc0] at h
      by_cases hc1 : (byte >>> 4) &&& 0x0F = 0x1
      · rw [if_pos hc1] at h
        simp only [from_nop] at h
        obtain ⟨p0, -, h⟩ := bind_ok h
        obtain ⟨a0, b0⟩ := p0
        try dsimp only at h
        obtain ⟨x1, -, h⟩ := bind_ok h
        try dsimp only at h
        exact (Except.ok.inj h) ▸ rfl
      · rw [if_neg hc1] at h
        by_cases hc2 : (byte >>> 4) &&& 0x0F = 0x2
        · rw [if_pos hc2] at h
          simp only [from_rrmovxx] at h
          obtain ⟨p0, -, h⟩ := bind_ok h
          obtain ⟨a0, b0⟩ := p0
          try dsimp only at h
          obtain ⟨p1, -, h⟩ := bind_ok h
          obtain ⟨a1, b1⟩ := p1
          try dsimp only at h
          obtain ⟨x2, -, h⟩ := bind_ok h
          try dsimp only at h
          exact (Except.ok.inj h) ▸ rfl
        · rw [if_neg hc2] at h
          by_cases hc3 : (byte >>> 4) &&& 0x0F = 0x5
          · rw [if_pos hc3] at h
            simp only [from_mrmovq] at h
            obtain ⟨p0, -, h⟩ := bind_ok h
            obtain ⟨a0, b0⟩ := p0
            try dsimp only at h
            obtain ⟨p1, -, h⟩ := bind_ok h
            obtain ⟨a1, b1⟩ := p1
            try dsimp only at h
            obtain ⟨x2, -, h⟩ := bind_ok h
            try dsimp only at h
            obtain ⟨x3, -, h⟩ := bind_ok h
            try dsimp only at h
            exact (Except.ok.inj h) ▸ rfl
          · rw [if_neg hc3] at h
            by_cases hc4 : (byte >>> 4) &&& 0x0F = 0x4
            · rw [if_pos hc4] at h
              simp only [from_rmmovq] at h
              obtain ⟨p0, -, h⟩ := bind_ok h
              obtain ⟨a0, b0⟩ := p0
              try dsimp only at h
              obtain ⟨p1, -, h⟩ := bind_ok h
              obtain ⟨a1, b1⟩ := p1
              try dsimp only at h
              obtain ⟨x2, -, h⟩ := bind_ok h
              try dsimp only at h
              obtain ⟨x3, -, h⟩ := bind_ok h
              try dsimp only at h
              exact (Except.ok.inj h) ▸ rfl
            · rw [if_neg hc4] at h
              by_cases hc5 : (byte >>> 4) &&& 0x0F = 0x3
              · rw [if_pos hc5] at h
                simp only [from_irmovq] at h
                obtain ⟨p0, -, h⟩ := bind_ok h
                obtain ⟨a0, b0⟩ := p0
                try dsimp only at h
                obtain ⟨x1, -, h⟩ := bind_ok h
                try dsimp only at h
                obtain ⟨x2, -, h⟩ := bind_ok h
                try dsimp only at h
                obtain ⟨x3, -, h⟩ := bind_ok h
                try dsimp only at h
                exact (Except.ok.inj h) ▸ rfl
              · rw [if_neg hc5] at h
                by_cases hc6 : (byte >>> 4) &&& 0x0F = 0x7
                · rw [if_pos hc6] at h
                  simp only [from_jmp] at h
                  obtain ⟨p0, -, h⟩ := bind_ok h
                  obtain ⟨a0, b0⟩ := p0
                  try dsimp only at h
                  obtain ⟨x1, -, h⟩ := bind_ok h
                  try dsimp only at h
                  obtain ⟨x2, -, h⟩ := bind_ok h
                  try dsimp only at h
                  exact (Except.ok.inj h) ▸ rfl
                · rw [if_neg hc6] at h
                  by_cases hc7 : (byte >>> 4) &&& 0x0F = 0x8
                  · rw [if_pos hc7] at h
                    simp only [from_call] at h
                    obtain ⟨p0, -, h⟩ := bind_ok h
                    obtain ⟨a0, b0⟩ := p0
                    try dsimp only at h
                    obtain ⟨x1, -, h⟩ := bind_ok h
                    try dsimp only at h
                    obtain ⟨x2, -, h⟩ := bind_ok h
                    try dsimp only at h
                    exact (Except.ok.inj h) ▸ rfl
                  · rw [if_neg hc7] at h
                    by_cases hc8 : (byte >>> 4) &&& 0x0F = 0x9
                    · rw [if_pos hc8] at h
                      simp only [from_ret] at h
                      obtain ⟨p0, -, h⟩ := bind_ok h
                      obtain ⟨a0, b0⟩ := p0
                      try dsimp only at h
                      obtain ⟨x1, -, h⟩ := bind_ok h
                      try dsimp only at h
                      exact (Except.ok.inj h) ▸ rfl
                    · rw [if_neg hc8] at h
                      by_cases hc9 : (byte >>> 4) &&& 0x0F = 0xb
                      · rw [if_pos hc9] at h
                        simp only [from_pop] at h
                        obtain ⟨p0, -, h⟩ := bind_ok h
                        obtain ⟨a0, b0⟩ := p0
                        try dsimp only at h
                        obtain ⟨p1, -, h⟩ := bind_ok h
                        obtain ⟨a1, b1⟩ := p1
                        try dsimp only at h
                        obtain ⟨x2, -, h⟩ := bind_ok h
                        try dsimp only at h
                        exact (Except.ok.inj h) ▸ rfl
                      · rw [if_neg hc9] at h
                        by_cases hc10 : (byte >>> 4) &&& 0x0F = 0xa
                        · rw [if_pos hc10] at h
                          simp only [from_push] at h
                          obtain ⟨p0, -, h⟩ := bind_ok h
                          obtain ⟨a0, b0⟩ := p0
                          try dsimp only at h
                          obtain ⟨p1, -, h⟩ := bind_ok h
                          obtain ⟨a1, b1⟩ := p1
                          try dsimp only at h
                          obtain ⟨x2, -, h⟩ := bind_ok h
                          try dsimp only at h
                          exact (Except.ok.inj h) ▸ rfl
                        · rw [if_neg hc10] at h
                          by_cases hc11 : (byte >>> 4) &&& 0x0F = 0x6
                          · rw [if_pos hc11] at h
                            simp only [from_opq] at h
                            obtain ⟨p0, -, h⟩ := bind_ok h
                            obtain ⟨a0, b0⟩ := p0
                            try dsimp only at h
                            obtain ⟨p1, -, h⟩ := bind_ok h
                            obtain ⟨a1, b1⟩ := p1
                            try dsimp only at h
                            obtain ⟨x2, -, h⟩ := bind_ok h
                            try dsimp only at h
                            exact (Except.ok.inj h) ▸ rfl
                          · rw [if_neg hc11] at h
                            exact absurd h (by simp)

theorem run_loop_spec (bset : List Nat) :
    ∀ fuel (s : State) tr out,
      run_loop bset fuel s = .ok (tr, out) →
      (∀ l ∈ tr, l ∉ bset) ∧
      (∀ s₁, out = some s₁ → ∃ curr, Instruction.new s₁ = .ok curr ∧
        curr.location = s₁.program_counter ∧
        (curr.location ∈ bset ∨ curr.icode = .IHALT)) := by
  intro fuel
  induction fuel with
  | zero =>
    intro s tr out h
    rw [run_loop] at h
    cases Except.ok.inj h
    exact ⟨by simp, by simp⟩
  | succ k ih =>
    intro s tr out h
    rw [run_loop] at h
    obtain ⟨curr, hcur, h⟩ := bind_ok h
    by_cases hstop : curr.location ∈ bset ∨ curr.icode = .IHALT
    · rw [if_pos hstop] at h
      cases Except.ok.inj h
      refine ⟨by simp, fun s₁ hs₁ => ?_⟩
      cases Option.some.inj hs₁
      exact ⟨curr, hcur, new_location _ _ hcur, hstop⟩
    · rw [if_neg hstop] at h
      obtain ⟨s', hs', h⟩ := bind_ok h
      obtain ⟨pr, hrec, h⟩ := bind_ok h
      obtain ⟨tr', out'⟩ := pr
      cases Except.ok.inj h
      obtain ⟨ih1, ih2⟩ := ih s' tr' out hrec
      push_neg at hstop
      refine ⟨fun l hl => ?_, ih2⟩
      rcases List.mem_cons.mp hl with rfl | hm
      · exact hstop.1
      · exact ih1 l hm

/-- C9: a `run` started from a PC that is not a breakpoint executes only
instructions whose locations are not breakpoints; when the loop stops on
its own, the stop state's current (not yet executed) instruction sits at
the stop state's PC and is either located at a breakpoint or is HALT — so
with breakpoint A set, `run` stops with PC = A without executing the
instruction at A, and a subsequent `step` is exactly its execution. -/
theorem run_stops_at_breakpoint (bset : List Nat) (fuel : Nat) (s₀ : State)
    (instr : Instruction) (tr : List Nat) (out : Option State)
    (hdec : Instruction.new s₀ = .ok instr)
    (hnb : instr.location ∉ bset)
    (hrun : run_run bset fuel instr s₀ = .ok (tr, out)) :
    (∀ l, l ∈ tr → l ∉ bset) ∧
    (∀ s₁, out = some s₁ → ∃ curr, Instruction.new s₁ = .ok curr ∧
      curr.location = s₁.program_counter ∧
      (curr.location ∈ bset ∨ curr.icode = .IHALT) ∧
      run_step curr s₁ = curr.execute s₁) := by
  unfold run_run at hrun
  obtain ⟨s', -, hrun⟩ := bind_ok hrun
  obtain ⟨pr, hloop, hrun⟩ := bind_ok hrun
  obtain ⟨tr', out'⟩ := pr
  cases Except.ok.inj hrun
  obtain ⟨h1, h2⟩ := run_loop_spec bset fuel s' tr' out hloop
  refine ⟨fun l hl => ?_, fun s₁ hs₁ => ?_⟩
  · rcases List.mem_cons.mp hl with rfl | hm
    · exact hnb
    · exact h1 l hm
  · obtain ⟨curr, hc, hl, hstop⟩ := h2 s₁ hs₁
    exact ⟨curr, hc, hl, hstop, rfl⟩

theorem run_stops_at_breakpoint_witness :
    Instruction.new (State.mk (List.replicate 16 0) [0x10, 0x10, 0x00] 0 0) =
      .ok (Instruction.mk .INOP 0 none none none 0 1) ∧
    (Instruction.mk ICode.INOP 0 none none none 0 1).location ∉ ([1] : List Nat) ∧
    ((∀ l, l ∈ ([0] : List Nat) → l ∉ ([1] : List Nat)) ∧
     (∀ s₁, (some (State.mk (List.replicate 16 0) [0x10, 0x10, 0x00] 0 1) : Option State) = some s₁ →
        ∃ curr, Instruction.new s₁ = .ok curr ∧
          curr.location = s₁.program_counter ∧
          (curr.location ∈ ([1] : List Nat) ∨ curr.icode = .IHALT) ∧
          run_step curr s₁ = curr.execute s₁)) :=
  ⟨by rfl, by decide,
    run_stops_at_breakpoint [1] 5
      (State.mk (List.replicate 16 0) [0x10, 0x10, 0x00] 0 0)
      (Instruction.mk .INOP 0 none none none 0 1)
      [0] (some (State.mk (List.replicate 16 0) [0x10, 0x10, 0x00] 0 1))
      (by rfl) (by decide) (by rfl)⟩

theorem merge_go_stable (ps : List (Nat × List Nat)) :
    ∀ (res : List Nat) (a : Nat), a < res.length →
      (merge_position_go ps res)[a]? = res[a]? := by
  induction ps with
  | nil => intro res a _; rfl
  | cons p rest ih =>
    obtain ⟨key, val⟩ := p
    intro res a ha
    rw [merge_position_go]
    rw [ih _ a (by simp [pad_zeros]; omega)]
    rw [List.getElem?_append_left (by simp [pad_zeros]; omega)]
    rw [pad_zeros, List.getElem?_append_left ha]

theorem merge_go_length (ps : List (Nat × List Nat)) :
    ∀ (res : List Nat) (k : Nat) (v : List Nat), regionsOk res.length ps = true →
      ps.getLast? = some (k, v) → (merge_position_go ps res).length = k + v.length := by
  induction ps with
  | nil => simp
  | cons p rest ih =>
    obtain ⟨key, val⟩ := p
    intro res k v hok hlast
    rw [regionsOk] at hok
    split at hok
    case isFalse => cases hok
    case isTrue hle =>
    rw [merge_position_go]
    cases rest with
    | nil =>
      simp only [List.getLast?_singleton, Option.some.injEq, Prod.mk.injEq] at hlast
      obtain ⟨rfl, rfl⟩ := hlast
      rw [merge_position_go]
      simp [pad_zeros]
      omega
    | cons q rest2 =>
      have hlen : (pad_zeros res key ++ val).length = key + val.length := by
        simp [pad_zeros]
        omega
      exact ih _ k v (by rw [hlen]; exact hok) hlast

theorem merge_go_bytes (ps : List (Nat × List Nat)) :
    ∀ (res : List Nat), regionsOk res.length ps = true →
      ∀ p ∈ ps, ∀ j < p.2.length, (merge_position_go ps res)[p.1 + j]? = p.2[j]? := by
  induction ps with
  | nil => simp
  | cons hd rest ih =>
    obtain ⟨key, val⟩ := hd
    intro res hok p hp j hj
    rw [regionsOk] at hok
    split at hok
    case isFalse => cases hok
    case isTrue hle =>
    have hlen : (pad_zeros res key ++ val).length = key + val.length := by
      simp [pad_zeros]
      omega
    rw [merge_position_go]
    rcases List.mem_cons.mp hp with rfl | hmem
    · dsimp only at hj ⊢
      rw [merge_go_stable rest _ _ (by simp [pad_zeros]; omega)]
      rw [List.getElem?_append_right (by simp [pad_zeros]; omega)]
      congr 1
      simp [pad_zeros]
      omega
    · exact ih _ (by rw [hlen]; exact hok) p hmem j hj

theorem merge_go_zeros (ps : List (Nat × List Nat)) :
    ∀ (res : List Nat) (a : Nat), regionsOk res.length ps = true →
      res.length ≤ a → a < (merge_position_go ps res).length →
      (∀ p ∈ ps, ¬(p.1 ≤ a ∧ a < p.1 + p.2.length)) →
      (merge_position_go ps res)[a]? = some 0 := by
  induction ps with
  | nil =>
    intro res a _ hge hlt _
    rw [merge_position_go] at hlt
    omega
  | cons hd rest ih =>
    obtain ⟨key, val⟩ := hd
    intro res a hok hge hlt hnot
    rw [regionsOk] at hok
    split at hok
    case isFalse => cases hok
    case isTrue hle =>
    have hlen : (pad_zeros res key ++ val).length = key + val.length := by
      simp [pad_zeros]
      omega
    rw [merge_position_go] at hlt ⊢
    by_cases hacc : a < (pad_zeros res key ++ val).length
    · have hhd := hnot (key, val) (List.mem_cons_self _ _)
      have hak : a < key := by
        rw [hlen] at hacc
        simp at hhd
        omega
      rw [merge_go_stable rest _ _ hacc]
      rw [List.getElem?_append_left (by simp [pad_zeros]; omega)]
      rw [pad_zeros, List.getElem?_append_right hge]
      exact List.getElem?_replicate_of_lt (by omega)
    · push_neg at hacc
      exact ih _ a (by rw [hlen]; exact hok) (by omega) hlt
        (fun p hp => hnot p (List.mem_cons_of_mem _ hp))

/-- C5: for a positions map whose regions do not overlap (each region's
start key at least the end of its predecessor, in ascending key order),
the merged image places each region's bytes exactly at its key address,
fills every uncovered address (gaps between regions and before the first)
with zero bytes, and has total length equal to the last region's start
address plus its byte count. -/
theorem merge_position_spec (ps : List (Nat × List Nat)) (hok : regionsOk 0 ps = true) :
    (∀ p ∈ ps, ∀ j < p.2.length, (merge_position ps)[p.1 + j]? = p.2[j]?) ∧
    (∀ a < (merge_position ps).length,
      (∀ p ∈ ps, ¬(p.1 ≤ a ∧ a < p.1 + p.2.length)) → (merge_position ps)[a]? = some 0) ∧
    (∀ k v, ps.getLast? = some (k, v) → (merge_position ps).length = k + v.length) :=
  ⟨fun p hp j hj => merge_go_bytes ps [] hok p hp j hj,
   fun a hlt hnot => merge_go_zeros ps [] a hok (by simp) hlt hnot,
   fun k v hlast => merge_go_length ps [] k v hok hlast⟩

theorem merge_position_spec_witness :
    regionsOk 0 [(2, [7, 8]), (6, [9])] = true ∧
    (merge_position [(2, [7, 8]), (6, [9])])[2 + 0]? = some 7 ∧
    (merge_position [(2, [7, 8]), (6, [9])])[4]? = some 0 ∧
    (merge_position [(2, [7, 8]), (6, [9])]).length = 6 + 1 :=
  ⟨by decide,
    (merge_position_spec [(2, [7, 8]), (6, [9])] (by decide)).1 (2, [7, 8]) (by decide) 0
      (by decide),
    (merge_position_spec [(2, [7, 8]), (6, [9])] (by decide)).2.1 4 (by decide) (by decide),
    (merge_position_spec [(2, [7, 8]), (6, [9])] (by decide)).2.2 6 [9] (by decide)⟩

/-- C6 counterexample: label `a` mapped to address 1, line `addq a`.  The
space-preceded occurrence makes the label a substitution candidate, but
the code then replaces EVERY occurrence of `a` — including the one inside
the opcode `addq` — yielding `0x1ddq 0x1`, not the claim's `addq 0x1`. -/
theorem apply_mapping_counterexample :
    isSubstring (' ' :: ("a").toList) (("addq a").toList) = true ∧
    apply_mapping [(("a").toList, 1)] (("addq a").toList) = ("0x1ddq 0x1").toList ∧
    apply_mapping [(("a").toList, 1)] (("addq a").toList) ≠ ("addq 0x1").toList :=
  ⟨by decide, by decide, by decide⟩

/-- C6 (amended): label resolution tries labels in longest-first order
(the stable sort yields pairwise non-increasing label lengths); a label is
a substitution candidate only when it occurs preceded by a space (a line
with no space-preceded occurrence is left entirely unchanged); but when
such an occurrence exists, EVERY occurrence of the label's text
(space-preceded or not, including inside an opcode or register name) is
replaced with the label's 0x-prefixed hex address. -/
theorem apply_mapping_amended (k : List Char) (val : Nat) (body : List Char)
    (hk : ':' ∉ body) (mapping : List (List Char × Nat)) :
    List.Pairwise (fun x y : List Char × Nat => y.1.length ≤ x.1.length) (sortLabels mapping) ∧
    (isSubstring (' ' :: k) body = false → apply_mapping [(k, val)] body = body) ∧
    (isSubstring (' ' :: k) body = true →
      apply_mapping [(k, val)] body = replaceAll k (format_hex val) body) := by
  have hstrip : strip_label body = body := by
    rw [strip_label, if_neg]
    simp only [Bool.not_eq_true]
    simpa using hk
  refine ⟨?_, fun hfalse => ?_, fun htrue => ?_⟩
  · haveI ht : IsTotal (List Char × Nat)
        (fun x y : List Char × Nat => y.1.length ≤ x.1.length) :=
      ⟨fun a b => (Nat.le_total b.1.length a.1.length)⟩
    haveI htr : IsTrans (List Char × Nat)
        (fun x y : List Char × Nat => y.1.length ≤ x.1.length) :=
      ⟨fun _ _ _ hab hbc => Nat.le_trans hbc hab⟩
    exact List.sorted_insertionSort _ mapping
  · rw [apply_mapping, hstrip]
    simp [sortLabels, List.insertionSort, List.orderedInsert, hfalse]
  · rw [apply_mapping, hstrip]
    simp [sortLabels, List.insertionSort, List.orderedInsert, htrue]

theorem apply_mapping_amended_witness :
    ':' ∉ ("jmp lo").toList ∧
    (List.Pairwise (fun x y : List Char × Nat => y.1.length ≤ x.1.length)
      (sortLabels [(("x").toList, 7), (("lo").toList, 3)]) ∧
    (isSubstring (' ' :: ("lo").toList) (("jmp lo").toList) = false →
      apply_mapping [(("lo").toList, 3)] (("jmp lo").toList) = ("jmp lo").toList) ∧
    (isSubstring (' ' :: ("lo").toList) (("jmp lo").toList) = true →
      apply_mapping [(("lo").toList, 3)] (("jmp lo").toList) =
        replaceAll (("lo").toList) (format_hex 3) (("jmp lo").toList))) :=
  ⟨by decide,
    apply_mapping_amended (("lo").toList) 3 (("jmp lo").toList) (by decide)
      [(("x").toList, 7), (("lo").toList, 3)]⟩

end Y86
